import Mathlib

/-!
Verification development for the Delta Chat core (C sources:
`src/dc_pgp.c`, `src/mrmailbox.c`).  C strings are modelled as `List Char`
(C strings cannot contain NUL, so a NUL-free character list is faithful);
machine integers that can go negative are modelled as `Int`, ids and sizes
as `Nat`.  Database state is modelled as explicit record passing; callback
invocations are collected into event lists.
-/

namespace DeltaCore

/-! ## Basic C-string helpers (strcasecmp, trim, ...) -/

/-- ASCII `tolower`, as used by `strcasecmp`. -/
def asciiLower (c : Char) : Char :=
  if 'A' ≤ c ∧ c ≤ 'Z' then Char.ofNat (c.toNat + 32) else c

/-- `strcasecmp(a, b) == 0`: case-insensitive string equality. -/
def strcaseEq (a b : List Char) : Bool :=
  a.map asciiLower == b.map asciiLower

/-- The whitespace set `PGP_WS` = `"\t\r\n "` from `dc_pgp.c`. -/
def isPgpWs (c : Char) : Bool :=
  c = '\t' ∨ c = '\r' ∨ c = '\n' ∨ c = ' '

/-- `dc_trim`: strip whitespace from both ends of a string (external
`dc_tools` helper; the whitespace set is the one the armor scanner uses). -/
def dc_trim (s : List Char) : List Char :=
  ((s.dropWhile isPgpWs).reverse.dropWhile isPgpWs).reverse

/-- `dc_remove_cr_chars`: delete every carriage return from the buffer. -/
def dc_remove_cr_chars (s : List Char) : List Char :=
  s.filter (fun c => c ≠ '\r')

/-! ## Armor codec: `dc_split_armored_data` (src/dc_pgp.c, lines 79-177)

The C function scans the buffer line by line ('\n'-terminated lines; the
mutilated buffer details - NUL insertion, in-place trim - do not affect the
returned slices, which we model as separate lists). -/

/-- Split off the first '\n'-terminated line: returns `(line, rest)` where
`line` has no newline and `rest` is everything after the '\n'; `none` when
the buffer holds no further complete line. -/
def breakAtNewline : List Char → Option (List Char × List Char)
  | [] => none
  | c :: rest =>
    if c = '\n' then some ([], rest)
    else
      match breakAtNewline rest with
      | none => none
      | some (l, r) => some (c :: l, r)

theorem breakAtNewline_rest_length {s l r : List Char}
    (h : breakAtNewline s = some (l, r)) : r.length < s.length := by
  induction s generalizing l r with
  | nil => simp [breakAtNewline] at h
  | cons c rest ih =>
    by_cases hc : c = '\n'
    · simp [breakAtNewline, hc] at h
      simp [← h.2]
    · simp [breakAtNewline, hc] at h
      cases hbr : breakAtNewline rest with
      | none => rw [hbr] at h; simp at h
      | some p =>
        rw [hbr] at h
        obtain ⟨l', r'⟩ := p
        simp at h
        have := ih (l := l') (r := r') hbr
        obtain ⟨h1, h2⟩ := h
        simp [← h2]
        omega

theorem breakAtNewline_rest_le {s l r : List Char}
    (h : breakAtNewline s = some (l, r)) : r.length + 1 ≤ s.length :=
  breakAtNewline_rest_length h

def BEGIN_MARK : List Char := "-----BEGIN ".toList
def END_MARK : List Char := "-----END ".toList
def DASHES5 : List Char := "-----".toList

/-- The headerline test of line 107: first 11 characters are
`-----BEGIN ` and the last 5 characters are `-----`. -/
def isBeginLine (t : List Char) : Bool :=
  BEGIN_MARK.isPrefixOf t && DASHES5.isSuffixOf t

/-- One pass of the scanning loop of `dc_split_armored_data`
(lines 100-154).  `hl` is the found headerline (`NULL` before one is
found), `scb`/`pe` the `Passphrase-Begin` / `Autocrypt-Prefer-Encrypt`
header values seen so far.  Returns `(headerline, scb, pe, base64area)`
when the loop sets `base64` and breaks, `none` when the buffer runs out of
complete lines first. -/
def scanArmorFuel : Nat → List Char → Option (List Char) →
    Option (List Char) → Option (List Char) →
    Option (List Char × Option (List Char) × Option (List Char) × List Char)
  | 0, _, _, _, _ => none
  | n + 1, buf, hl, scb, pe =>
    match breakAtNewline buf with
    | none => none
    | some (line, rest) =>
      match hl with
      | none =>
        let t := dc_trim line
        if isBeginLine t then scanArmorFuel n rest (some t) scb pe
        else scanArmorFuel n rest none scb pe
      | some h =>
        if line.all isPgpWs then
          some (h, scb, pe, rest)
        else if !line.contains ':' then
          some (h, scb, pe, line ++ '\n' :: rest)
        else
          let nm := dc_trim (line.takeWhile (fun c => c ≠ ':'))
          let value := dc_trim ((line.dropWhile (fun c => c ≠ ':')).drop 1)
          if strcaseEq nm "Passphrase-Begin".toList then
            scanArmorFuel n rest (some h) (some value) pe
          else if strcaseEq nm "Autocrypt-Prefer-Encrypt".toList then
            scanArmorFuel n rest (some h) scb (some value)
          else
            scanArmorFuel n rest (some h) scb pe

/-- The scanning loop of `dc_split_armored_data` (lines 100-154), run with
fuel `buf.length`: each loop pass consumes at least one character (the
line's newline), so the fuel never runs out before the buffer does
(`breakAtNewline` of an exhausted buffer yields `none` either way). -/
def scanArmor (buf : List Char) (hl scb pe : Option (List Char)) :
    Option (List Char × Option (List Char) × Option (List Char) × List Char) :=
  scanArmorFuel buf.length buf hl scb pe

/-- `strstr`: split `s` at the first occurrence of `pat`, returning the
part before the match and the suffix starting at the match. -/
def strstrSplit (pat : List Char) : List Char → Option (List Char × List Char)
  | [] => if pat = [] then some ([], []) else none
  | c :: rest =>
    if pat.isPrefixOf (c :: rest) then some ([], c :: rest)
    else
      match strstrSplit pat rest with
      | none => none
      | some (pre, suf) => some (c :: pre, suf)

/-- Result record of `dc_split_armored_data`: the four returned slices
(`ret_headerline`, `ret_setupcodebegin`, `ret_preferencrypt`,
`ret_base64`). -/
structure SplitArmoredResult where
  headerline : List Char
  setupcodebegin : Option (List Char)
  preferencrypt : Option (List Char)
  base64 : List Char
  deriving DecidableEq, Repr

/-- `dc_split_armored_data` (src/dc_pgp.c, lines 79-177): remove CRs, scan
for the headerline and the base64 start, then find `-----END ` and check
that the END tag matches the BEGIN tag (`strncmp(p1+9, headerline+11,
strlen(headerline+11))`).  Returns `none` where the C code returns 0. -/
def dc_split_armored_data (buf : List Char) : Option SplitArmoredResult :=
  match scanArmor (dc_remove_cr_chars buf) none none none with
  | none => none
  | some (hl, scb, pe, b64area) =>
    match strstrSplit END_MARK b64area with
    | none => none
    | some (pre, suf) =>
      if (hl.drop 11).isPrefixOf (suf.drop 9) then
        some ⟨hl, scb, pe, dc_trim pre⟩
      else none

/-! ## Constants

The numeric constants live in headers that are not part of this snapshot
(`mrchat.h`, `mrcontact.h`, `mrevent.h`, ...).  Their exact values are
irrelevant to the claims - only the relations between them matter - and the
relative ordering below follows the spec (reserved-id thresholds,
`VALID_ID_LEN` = 11, origin ranking of spec 4.E.6). -/

def MR_VALID_ID_LEN : Nat := 11
def MR_CHAT_ID_DEADDROP : Nat := 1
def MR_CHAT_ID_TO_DEADDROP : Nat := 2
def MR_CHAT_ID_TRASH : Nat := 3
def MR_CHAT_ID_LAST_SPECIAL : Nat := 9
def MR_CHAT_NORMAL : Nat := 100
def MR_CHAT_GROUP : Nat := 120
def MR_CONTACT_ID_SELF : Nat := 1
def MR_CONTACT_ID_LAST_SPECIAL : Nat := 9
def MR_STATE_UNDEFINED : Nat := 0
def MR_IN_FRESH : Nat := 10
def MR_IN_SEEN : Nat := 16
def MR_OUT_DELIVERED : Nat := 26
def MR_OUT_READ : Nat := 28
def MR_MSG_TEXT : Nat := 10
def MR_EVENT_MSGS_CHANGED : Nat := 2000
def MR_EVENT_INCOMING_MSG : Nat := 2005
def MR_IMAP_SEEN : Nat := 1
def MR_MDNS_DEFAULT_ENABLED : Int := 1
def MR_INVALID_TIMESTAMP : Int := 0
def MR_ORIGIN_INCOMING_UNKNOWN_FROM : Nat := 16
def MR_ORIGIN_INCOMING_CC : Nat := 32
def MR_ORIGIN_INCOMING_TO : Nat := 64
def MR_ORIGIN_INCOMING_REPLY_TO : Nat := 256
def MR_ORIGIN_OUTGOING_BCC : Nat := 4096
def MR_ORIGIN_OUTGOING_CC : Nat := 8192
def MR_ORIGIN_OUTGOING_TO : Nat := 16384
/-- Modelled from the spec: the origin rank from which a contact counts as
"known" to `is_known_contact` (mrcontact.c is not in this snapshot; spec
4.E.4/4.E.6 say a contact entering via `INCOMING_UNKNOWN_FROM` is not yet
known while reply-to/outgoing contacts are). -/
def MR_ORIGIN_MIN_KNOWN : Nat := 256
def APPROX_SUBJECT_CHARS : Nat := 32

/-! ## Events

`mailbox->m_cb(mailbox, event, data1, data2)` invocations are modelled as
values of this type, collected in call order. -/

inductive Event where
  | chatModified (chat_id : Nat)
  | incomingMsg (chat_id : Nat) (msg_id : Nat)
  | msgsChanged (chat_id : Nat) (msg_id : Nat)
  | msgRead (chat_id : Nat) (msg_id : Nat)
  | wakeLock (flag : Nat)
  deriving DecidableEq, Repr

/-! ## Data model (spec section 3 / persisted schema of section 6) -/

structure Contact where
  id : Nat
  addr : List Char
  name : List Char
  origin : Nat
  blocked : Bool
  deriving DecidableEq, Repr

structure Chat where
  id : Nat
  type : Nat
  name : List Char
  grpid : Option (List Char)
  deriving DecidableEq, Repr

structure Msg where
  id : Nat
  rfc724_mid : List Char
  server_folder : List Char
  server_uid : Nat
  chat_id : Nat
  from_id : Nat
  to_id : Nat
  timestamp : Int
  type : Nat
  state : Nat
  msgrmsg : Bool
  txt : List Char
  txt_raw : List Char
  param : List Char
  bytes : Nat
  deriving DecidableEq, Repr

structure Db where
  contacts : List Contact
  chats : List Chat
  chats_contacts : List (Nat × Nat)
  msgs : List Msg
  leftgrps : List (List Char)
  config : List (List Char × List Char)
  nextContactId : Nat
  nextChatId : Nat
  nextMsgId : Nat
  deriving DecidableEq, Repr

/-- External collaborators whose behaviour the core consumes but does not
implement: the RFC 2047 header decoder (`mr_decode_header_string`) and the
smeared-time clock (`mr_smeared_time__` / `mr_create_smeared_timestamp__`),
both from the missing `mrtools.c`. -/
structure Env where
  decode : List Char → List Char
  smearedNow : Int

/-! ## Persistence primitives (spec 4.D; SQL statements of mrmailbox.c) -/

def Db.getConfig (db : Db) (key : List Char) (dflt : List Char) : List Char :=
  match db.config.find? (fun kv => kv.1 == key) with
  | some kv => kv.2
  | none => dflt

def natFromDigits (s : List Char) : Nat :=
  (s.takeWhile Char.isDigit).foldl (fun a c => a * 10 + (c.toNat - 48)) 0

/-- C `atoi` on a NUL-terminated string. -/
def atoiChars (s : List Char) : Int :=
  let s := s.dropWhile isPgpWs
  match s with
  | '-' :: rest => - (natFromDigits rest : Int)
  | '+' :: rest => (natFromDigits rest : Int)
  | _ => (natFromDigits s : Int)

/-- `mrsqlite3_get_config_int__`: string config value coerced to int. -/
def Db.getConfigInt (db : Db) (key : List Char) (dflt : Int) : Int :=
  match db.config.find? (fun kv => kv.1 == key) with
  | some kv => atoiChars kv.2
  | none => dflt

def Db.findContact (db : Db) (cid : Nat) : Option Contact :=
  db.contacts.find? (fun c => c.id == cid)

/-- Modelled from the spec (4.D `contact_addr_equals`; mrcontact.c is not
in this snapshot): compare the stored contact address with `addr`,
case-insensitively as everywhere else addresses are compared. -/
def mrmailbox_contact_addr_equals (db : Db) (cid : Nat) (addr : List Char) : Bool :=
  match db.findContact cid with
  | some c => strcaseEq c.addr addr
  | none => false

def mrmailbox_is_contact_in_chat (db : Db) (chat_id cid : Nat) : Bool :=
  db.chats_contacts.any (fun p => p.1 == chat_id && p.2 == cid)

/-- Modelled from the spec (4.D `add_contact_to_chat`; schema has
`UNIQUE(chat_id, contact_id)`): insert the membership pair if absent. -/
def mrmailbox_add_contact_to_chat (db : Db) (chat_id cid : Nat) : Db :=
  if mrmailbox_is_contact_in_chat db chat_id cid then db
  else { db with chats_contacts := db.chats_contacts ++ [(chat_id, cid)] }

/-- `DELETE FROM chats_contacts WHERE chat_id=?`. -/
def sql_delete_chat_members (db : Db) (chat_id : Nat) : Db :=
  { db with chats_contacts := db.chats_contacts.filter (fun p => p.1 ≠ chat_id) }

def mrmailbox_group_explicitly_left (db : Db) (grpid : List Char) : Bool :=
  db.leftgrps.any (fun g => g == grpid)

def mrmailbox_get_chat_contact_count (db : Db) (chat_id : Nat) : Nat :=
  (db.chats_contacts.filter (fun p => p.1 == chat_id)).length

/-- `INSERT INTO chats (type, name, grpid) VALUES(?,?,?)`; the new row id
is `sqlite3_last_insert_rowid`. -/
def sql_insert_chat (db : Db) (ty : Nat) (nm : List Char)
    (grpid : Option (List Char)) : Db × Nat :=
  ({ db with
      chats := db.chats ++ [⟨db.nextChatId, ty, nm, grpid⟩],
      nextChatId := db.nextChatId + 1 },
   db.nextChatId)

/-- `UPDATE chats SET name=? WHERE id=?`. -/
def sql_update_chat_name (db : Db) (chat_id : Nat) (nm : List Char) : Db :=
  { db with chats := db.chats.map (fun c =>
      if c.id == chat_id then { c with name := nm } else c) }

/-! ## Parsed message header (libetpan mailimf structures) -/

structure Mailbox where
  display_name : Option (List Char)
  addr_spec : List Char
  deriving DecidableEq, Repr

inductive Address where
  | mailboxAd (mb : Mailbox)
  | groupAd (mbs : List Mailbox)
  deriving DecidableEq, Repr

inductive ImfField where
  | optionalField (name value : List Char)
  | messageId (mid : List Char)
  | inReplyTo (mids : List (List Char))
  | references (mids : List (List Char))
  | returnPath
  | fromF (mbs : List Mailbox)
  | toF (addrs : List Address)
  | ccF (addrs : List Address)
  | bccF (addrs : List Address)
  | origDate (ts : Int)
  | otherField
  deriving DecidableEq, Repr

/-! ## Group-ID extraction (src/mrmailbox.c, lines 52-95) -/

/-- `*p1 != '.'`: the scan predicate of `strchr(ret, '.')` / the id part. -/
def notDot (c : Char) : Bool := c ≠ '.'

/-- `extract_grpid_from_messageid`: accept `Gr.<id>.<more>` with
`strlen(id) == MR_VALID_ID_LEN`. -/
def extract_grpid_from_messageid (mid : List Char) : Option (List Char) :=
  if mid.length < 8 then none
  else
    match mid with
    | c1 :: c2 :: c3 :: rest =>
      if c1 = 'G' ∧ c2 = 'r' ∧ c3 = '.' then
        if '.' ∈ rest then
          if (rest.takeWhile notDot).length = MR_VALID_ID_LEN then
            some (rest.takeWhile notDot)
          else none
        else none
      else none
    | _ => none

/-- `get_first_grpid_from_char_clist`: first successful extraction. -/
def get_first_grpid_from_char_clist : List (List Char) → Option (List Char)
  | [] => none
  | mid :: rest =>
    match extract_grpid_from_messageid mid with
    | some g => some g
    | none => get_first_grpid_from_char_clist rest

/-- The header data gathered by the field walk of
`lookup_group_by_grpid__` (lines 118-167). -/
structure GroupHints where
  grpid1 : Option (List Char)
  grpid2 : Option (List Char)
  grpid3 : Option (List Char)
  grpid4 : Option (List Char)
  grpname : Option (List Char)
  removeFromGrp : Option (List Char)
  addToGrp : Option (List Char)
  grpNameChanged : Bool
  deriving DecidableEq, Repr

def initGroupHints : GroupHints :=
  ⟨none, none, none, none, none, none, none, false⟩

/-- One loop iteration of the field walk: plain C assignments, so a later
field of the same kind overwrites an earlier one. -/
def applyGroupField (decode : List Char → List Char) (h : GroupHints) :
    ImfField → GroupHints
  | .optionalField nm value =>
    if strcaseEq nm "X-MrGrpId".toList || strcaseEq nm "Chat-Group-ID".toList then
      { h with grpid1 := some value }
    else if strcaseEq nm "X-MrGrpName".toList || strcaseEq nm "Chat-Group-Name".toList then
      { h with grpname := some (decode value) }
    else if strcaseEq nm "X-MrRemoveFromGrp".toList || strcaseEq nm "Chat-Group-Member-Removed".toList then
      { h with removeFromGrp := some value }
    else if strcaseEq nm "X-MrAddToGrp".toList || strcaseEq nm "Chat-Group-Member-Added".toList then
      { h with addToGrp := some value }
    else if strcaseEq nm "X-MrGrpNameChanged".toList || strcaseEq nm "Chat-Group-Name-Changed".toList then
      { h with grpNameChanged := true }
    else h
  | .messageId mid => { h with grpid2 := extract_grpid_from_messageid mid }
  | .inReplyTo mids => { h with grpid3 := get_first_grpid_from_char_clist mids }
  | .references mids => { h with grpid4 := get_first_grpid_from_char_clist mids }
  | _ => h

def collectGroupHints (decode : List Char → List Char)
    (fields : List ImfField) : GroupHints :=
  fields.foldl (applyGroupField decode) initGroupHints

/-- Line 169: `grpid = grpid1? grpid1 : (grpid2? grpid2 : (grpid3? grpid3 :
grpid4))`. -/
def chosenGrpid (h : GroupHints) : Option (List Char) :=
  match h.grpid1 with
  | some g => some g
  | none =>
    match h.grpid2 with
    | some g => some g
    | none =>
      match h.grpid3 with
      | some g => some g
      | none => h.grpid4

/-! ## MIME parser output (the external parser's result record) -/

structure MimePart where
  type : Nat
  msg : List Char
  msg_raw : List Char
  param_packed : List Char
  bytes : Nat
  deriving DecidableEq, Repr

/-- Modelled from the spec (4.E.15): the outcome of the external MIME
library's dissection of one `multipart/report` part.
`is_disposition_notification` stands for `report-type=
disposition-notification` with at least two sub-parts,
`second_is_message_dn` for the second sub-part being
`message/disposition-notification`, and `org_msgid` for the
`Original-Message-ID` obtained after transfer-decoding and re-parsing the
sub-part (`none` when any of decode, parse, `Disposition:` presence or
message-id parse fails). -/
structure Report where
  is_disposition_notification : Bool
  second_is_message_dn : Bool
  org_msgid : Option (List Char)
  deriving DecidableEq, Repr

structure MimeParser where
  fields : List ImfField
  is_send_by_messenger : Bool
  parts : List MimePart
  reports : List Report
  subject : Option (List Char)
  deriving DecidableEq, Repr

/-! ## Group resolver: `lookup_group_by_grpid__`
(src/mrmailbox.c, lines 98-288) -/

/-- The body of the `to_list` loop of lines 259-266: add `to_id` unless
its address equals the self address or the Removed target. -/
def add_to_id_step (chat_id : Nat) (self_addr : List Char)
    (skip : Option (List Char)) (db : Db) (to_id : Nat) : Db :=
  if !(mrmailbox_contact_addr_equals db to_id self_addr)
      && (skip == none || !(mrmailbox_contact_addr_equals db to_id (skip.getD []))) then
    mrmailbox_add_contact_to_chat db chat_id to_id
  else db

/-- Lines 248-250: add SELF unless the self address equals the Removed
target. -/
def recreate_self_stage (chat_id : Nat) (self_addr : List Char)
    (skip : Option (List Char)) (db : Db) : Db :=
  if skip == none || !(strcaseEq self_addr (skip.getD [])) then
    mrmailbox_add_contact_to_chat db chat_id MR_CONTACT_ID_SELF
  else db

/-- Lines 252-257: add `from_id` when it is non-special and its address
matches neither the self address nor the Removed target. -/
def recreate_from_stage (chat_id : Nat) (self_addr : List Char)
    (skip : Option (List Char)) (from_id : Nat) (db : Db) : Db :=
  if from_id > MR_CONTACT_ID_LAST_SPECIAL then
    if !(mrmailbox_contact_addr_equals db from_id self_addr)
        && (skip == none || !(mrmailbox_contact_addr_equals db from_id (skip.getD []))) then
      mrmailbox_add_contact_to_chat db chat_id from_id
    else db
  else db

/-- The member-list recreation block (lines 239-266): clear the member
table for the chat, re-add SELF unless SELF is the Removed target, re-add
`from_id` when it is non-special and its address matches neither the self
address nor the Removed target, and re-add every `to_id` under the same
two address filters. -/
def recreate_member_list_db (db : Db) (chat_id : Nat) (self_addr : List Char)
    (skip : Option (List Char)) (from_id : Nat) (to_list : List Nat) : Db :=
  to_list.foldl (add_to_id_step chat_id self_addr skip)
    (recreate_from_stage chat_id self_addr skip from_id
      (recreate_self_stage chat_id self_addr skip
        (sql_delete_chat_members db chat_id)))

/-- Lines 222-278 of `lookup_group_by_grpid__`: execute the group
commands (member-list recreation or name change) on the resolved chat and
apply the final "reply instead of reply-all" guard. -/
def lookup_group_commands (db : Db) (mp : MimeParser) (h : GroupHints)
    (chat_id : Nat) (self_addr : List Char) (created : Bool)
    (from_id : Nat) (to_list : List Nat) : Nat × Db × List Event :=
  let recreate := created || h.addToGrp.isSome || h.removeFromGrp.isSome
  let (db1, events1) :=
    if h.addToGrp.isSome || h.removeFromGrp.isSome then (db, ([] : List Event))
    else if h.grpNameChanged && h.grpname.isSome
        && (h.grpname.getD []).length < 200 then
      (sql_update_chat_name db chat_id (h.grpname.getD []),
       [Event.chatModified chat_id])
    else (db, [])
  let (db2, events2) :=
    if recreate then
      (recreate_member_list_db db1 chat_id self_addr h.removeFromGrp from_id to_list,
       events1 ++ [Event.chatModified chat_id])
    else (db1, events1)
  (if to_list.length == 1 && !mp.is_send_by_messenger
      && mrmailbox_get_chat_contact_count db2 chat_id > 3 then 0
   else chat_id,
   db2, events2)

/-- The part of `lookup_group_by_grpid__` after the field walk, taking
the gathered header hints as an argument. -/
def lookup_group_with_hints (env : Env) (db : Db) (mp : MimeParser)
    (create_as_needed : Bool) (from_id : Nat) (to_list : List Nat)
    (h : GroupHints) : Nat × Db × List Event :=
  match chosenGrpid h with
  | none => (0, db, [])
  | some grpid =>
    let chat_id := ((db.chats.find? (fun c => c.grpid == some grpid)).map Chat.id).getD 0
    if chat_id ≠ 0 && !(mrmailbox_is_contact_in_chat db chat_id from_id) then
      (0, db, [])
    else
      let left := mrmailbox_group_explicitly_left db grpid
      let self_addr := db.getConfig "configured_addr".toList []
      let created :=
        chat_id == 0 && create_as_needed && h.grpname.isSome
          && h.removeFromGrp == none
          && (!left || (h.addToGrp.isSome && strcaseEq self_addr (h.addToGrp.getD [])))
      let (db, chat_id) :=
        if created then
          let (db', cid) := sql_insert_chat db MR_CHAT_GROUP (h.grpname.getD []) (some grpid)
          (db', cid)
        else (db, chat_id)
      if chat_id ≤ MR_CHAT_ID_LAST_SPECIAL then
        (if left then MR_CHAT_ID_TRASH else 0, db, [])
      else
        lookup_group_commands db mp h chat_id self_addr created from_id to_list

/-- `lookup_group_by_grpid__` (src/mrmailbox.c, lines 98-288): returns the
resolved chat id (0 = no group match), the updated database and the
`CHAT_MODIFIED` events fired through `mailbox->m_cb` during the call
(synchronously, inside the caller's transaction). -/
def lookup_group_by_grpid (env : Env) (db : Db) (mp : MimeParser)
    (create_as_needed : Bool) (from_id : Nat) (to_list : List Nat) :
    Nat × Db × List Event :=
  lookup_group_with_hints env db mp create_as_needed from_id to_list
    (collectGroupHints env.decode mp.fields)

/-! ## Contact handling used by receive_imf -/

/-- Modelled from the spec (4.D `add_or_lookup_contact`, 4.E.6 origin
ranking; mrcontact.c is not in this snapshot): look the address up
case-insensitively; when found, upgrade the origin monotonically and
return the existing id, otherwise insert a fresh contact row. -/
def mrmailbox_add_or_lookup_contact (db : Db) (nameOpt : Option (List Char))
    (addr : List Char) (origin : Nat) : Db × Nat :=
  match db.contacts.find? (fun c => strcaseEq c.addr addr) with
  | some c =>
    ({ db with contacts := db.contacts.map (fun c2 =>
        if c2.id == c.id then { c2 with origin := max c2.origin origin } else c2) },
     c.id)
  | none =>
    ({ db with
        contacts := db.contacts ++ [⟨db.nextContactId, addr, nameOpt.getD [], origin, false⟩],
        nextContactId := db.nextContactId + 1 },
     db.nextContactId)

/-- `add_or_lookup_contact_by_addr__` (src/mrmailbox.c, lines 330-364):
returns the updated db, the updated id list and `check_self` (the address
equals the configured self address; such an address is not added). -/
def add_or_lookup_contact_by_addr (env : Env) (db : Db)
    (display_name_enc : Option (List Char)) (addr_spec : List Char)
    (origin : Nat) (ids : List Nat) : Db × List Nat × Bool :=
  let self_addr := db.getConfig "configured_addr".toList []
  if strcaseEq self_addr addr_spec then (db, ids, true)
  else
    let (db, row_id) :=
      mrmailbox_add_or_lookup_contact db (display_name_enc.map env.decode) addr_spec origin
    if row_id ≠ 0 && !(ids.contains row_id) then (db, ids ++ [row_id], false)
    else (db, ids, false)

/-- `add_or_lookup_contacts_by_mailbox_list__` (lines 367-376): the
`check_self` out-parameter is overwritten by every element, so the
returned flag reflects the LAST mailbox of the list (it keeps its incoming
value when the list is empty). -/
def add_or_lookup_contacts_by_mailbox_list (env : Env) (db : Db)
    (mbs : List Mailbox) (origin : Nat) (ids : List Nat) (cs : Bool) :
    Db × List Nat × Bool :=
  mbs.foldl (fun (acc : Db × List Nat × Bool) mb =>
    add_or_lookup_contact_by_addr env acc.1 mb.display_name mb.addr_spec origin acc.2.1)
    (db, ids, cs)

/-- `add_or_lookup_contacts_by_address_list__` (lines 379-399). -/
def add_or_lookup_contacts_by_address_list (env : Env) (db : Db)
    (addrs : List Address) (origin : Nat) (ids : List Nat) (cs : Bool) :
    Db × List Nat × Bool :=
  addrs.foldl (fun (acc : Db × List Nat × Bool) ad =>
    match ad with
    | .mailboxAd mb =>
      add_or_lookup_contact_by_addr env acc.1 mb.display_name mb.addr_spec origin acc.2.1
    | .groupAd mbs =>
      add_or_lookup_contacts_by_mailbox_list env acc.1 mbs origin acc.2.1 acc.2.2)
    (db, ids, cs)

/-- Modelled from the spec (4.D `is_known_contact`, comment at line 597:
"checks if the contact is non-blocked and is known by any reason"):
returns `(known, blocked)`. -/
def mrmailbox_is_known_contact (db : Db) (cid : Nat) : Bool × Bool :=
  match db.findContact cid with
  | some c => (!c.blocked && c.origin ≥ MR_ORIGIN_MIN_KNOWN, c.blocked)
  | none => (false, false)

/-- Modelled from the spec (mrcontact.c missing). -/
def mrmailbox_is_contact_blocked (db : Db) (cid : Nat) : Bool :=
  match db.findContact cid with
  | some c => c.blocked
  | none => false

/-- Modelled from the spec (4.E.6: origin is upgraded, never
downgraded). -/
def mrmailbox_scaleup_contact_origin (db : Db) (cid : Nat) (origin : Nat) : Db :=
  { db with contacts := db.contacts.map (fun c =>
      if c.id == cid && c.origin < origin then { c with origin := origin } else c) }

/-! ## Reply detection (src/mrmailbox.c, lines 402-477) -/

/-- `is_known_rfc724_mid__`: `SELECT id FROM msgs WHERE rfc724_mid=? AND
(chat_id>MR_CHAT_ID_LAST_SPECIAL OR from_id=MR_CONTACT_ID_SELF)`. -/
def is_known_rfc724_mid (db : Db) (mid : List Char) : Bool :=
  db.msgs.any (fun m => m.rfc724_mid == mid
    && (decide (m.chat_id > MR_CHAT_ID_LAST_SPECIAL) || m.from_id == MR_CONTACT_ID_SELF))

/-- `is_reply_to_known_message__`. -/
def is_reply_to_known_message (db : Db) (mp : MimeParser) : Bool :=
  mp.fields.any (fun f =>
    match f with
    | .optionalField nm value =>
      (strcaseEq nm "X-MrPredecessor".toList || strcaseEq nm "Chat-Predecessor".toList)
        && is_known_rfc724_mid db value
    | .inReplyTo mids => mids.any (is_known_rfc724_mid db)
    | .references mids => mids.any (is_known_rfc724_mid db)
    | _ => false)

/-! ## Direction classification (src/mrmailbox.c, lines 545-604) -/

/-- Lines 551-573: `incoming` iff a `Return-Path` header is present,
either as the dedicated field type or as an optional field named
"Return-Path". -/
def scanReturnPath (fields : List ImfField) : Bool :=
  fields.any (fun f =>
    match f with
    | .returnPath => true
    | .optionalField nm _ => strcaseEq nm "Return-Path".toList
    | _ => false)

/-- `mr_find_mailimf_field(header, MAILIMF_FIELD_FROM)`. -/
def findFirstFrom : List ImfField → Option (List Mailbox)
  | [] => none
  | .fromF mbs :: _ => some mbs
  | _ :: rest => findFirstFrom rest

/-- `mr_find_mailimf_field(header, MAILIMF_FIELD_TO)`. -/
def findFirstTo : List ImfField → Option (List Address)
  | [] => none
  | .toF addrs :: _ => some addrs
  | _ :: rest => findFirstTo rest

/-- Lines 576-604: the From-handling of `receive_imf`.  Returns
`(incoming', from_id, from_id_blocked, incoming_from_known_sender, db')`.
The `incoming` flag is flipped to outgoing exactly when `check_self` is
set after the From walk - i.e. when the LAST mailbox of the first From
field equals the configured self address. -/
def resolve_from (env : Env) (db : Db) (incoming : Bool)
    (fields : List ImfField) : Bool × Nat × Bool × Bool × Db :=
  if incoming then
    match findFirstFrom fields with
    | none => (incoming, 0, false, false, db)
    | some mbs =>
      let (db, from_list, check_self) :=
        add_or_lookup_contacts_by_mailbox_list env db mbs
          MR_ORIGIN_INCOMING_UNKNOWN_FROM [] false
      if check_self then (false, 0, false, false, db)
      else
        match from_list with
        | [] => (true, 0, false, false, db)
        | fid :: _ =>
          let (known, blocked) := mrmailbox_is_known_contact db fid
          (true, fid, blocked, known, db)
  else (incoming, 0, false, false, db)

/-- Lines 606-616: seed `to_list` from the first To: field (outgoing or
incoming-from-known-sender only). -/
def process_first_to (env : Env) (db : Db) (outgoing : Bool) (known : Bool)
    (fields : List ImfField) : Db × List Nat :=
  if outgoing || known then
    match findFirstTo fields with
    | none => (db, [])
    | some addrs =>
      let (db, to_list, _) := add_or_lookup_contacts_by_address_list env db addrs
        (if outgoing then MR_ORIGIN_OUTGOING_TO else MR_ORIGIN_INCOMING_TO) [] false
      (db, to_list)
  else (db, [])

/-! ## "Collect the rest information" loop (lines 627-664) -/

structure RestInfo where
  db : Db
  rfc724_mid : Option (List Char)
  to_list : List Nat
  ts : Int
  deriving Repr

def collect_rest_step (env : Env) (outgoing : Bool) (acc : RestInfo) :
    ImfField → RestInfo
  | .messageId mid => { acc with rfc724_mid := some mid }
  | .ccF addrs =>
    let (db, ids, _) := add_or_lookup_contacts_by_address_list env acc.db addrs
      (if outgoing then MR_ORIGIN_OUTGOING_CC else MR_ORIGIN_INCOMING_CC) acc.to_list false
    { acc with db := db, to_list := ids }
  | .bccF addrs =>
    if outgoing then
      let (db, ids, _) := add_or_lookup_contacts_by_address_list env acc.db addrs
        MR_ORIGIN_OUTGOING_BCC acc.to_list false
      { acc with db := db, to_list := ids }
    else acc
  | .origDate ts => { acc with ts := ts }
  | _ => acc

def collect_rest (env : Env) (outgoing : Bool) (db : Db) (to_list : List Nat)
    (fields : List ImfField) : RestInfo :=
  fields.foldl (collect_rest_step env outgoing) ⟨db, none, to_list, MR_INVALID_TIMESTAMP⟩

/-! ## Normal (1:1) chats -/

/-- Modelled from the spec (4.D `lookup_real_nchat_by_contact_id`;
mrchat.c missing): the single chat the contact is a member of. -/
def mrmailbox_lookup_real_nchat_by_contact_id (db : Db) (cid : Nat) : Nat :=
  match db.chats.find? (fun c =>
      c.type == MR_CHAT_NORMAL && mrmailbox_is_contact_in_chat db c.id cid) with
  | some c => c.id
  | none => 0

/-- Modelled from the spec (4.D `create_or_lookup_nchat_by_contact_id`). -/
def mrmailbox_create_or_lookup_nchat_by_contact_id (db : Db) (cid : Nat) :
    Db × Nat :=
  let found := mrmailbox_lookup_real_nchat_by_contact_id db cid
  if found ≠ 0 then (db, found)
  else
    let (db, chat_id) := sql_insert_chat db MR_CHAT_NORMAL [] none
    (mrmailbox_add_contact_to_chat db chat_id cid, chat_id)

/-! ## Timestamp correction (src/mrmailbox.c, lines 296-327) -/

/-- `correct_bad_timestamp__`; `mr_smeared_time__` and
`mr_create_smeared_timestamp__` are the external smeared clock, both
modelled as `env.smearedNow`. -/
def correct_bad_timestamp (env : Env) (db : Db) (chat_id from_id : Nat)
    (desired : Int) (is_fresh : Bool) : Int :=
  let desired :=
    if is_fresh then
      let last := ((db.msgs.filter (fun m => m.chat_id == chat_id
          && m.from_id ≠ from_id && m.timestamp ≥ desired)).map Msg.timestamp).foldl max 0
      if last > 0 && desired ≤ last then last + 1 else desired
    else desired
  if desired ≥ env.smearedNow then env.smearedNow else desired

/-! ## Message-ID synthesis, dedup, row insertion -/

def natDigits (n : Nat) : List Char := Nat.toDigits 10 n

def intDigits (i : Int) : List Char :=
  if i < 0 then '-' :: natDigits i.natAbs else natDigits i.natAbs

def insertSorted (n : Nat) : List Nat → List Nat
  | [] => [n]
  | m :: rest => if n ≤ m then n :: m :: rest else m :: insertSorted n rest

def sortNat (l : List Nat) : List Nat := l.foldr insertSorted []

/-- Modelled from the spec (4.E.11; `mr_create_incoming_rfc724_mid` lives
in the missing mrtools.c): a deterministic Message-ID synthesised from
`(timestamp, from_id, sorted to_list)`. -/
def mr_create_incoming_rfc724_mid (ts : Int) (from_id : Nat)
    (to_list : List Nat) : List Char :=
  intDigits ts ++ '.' :: natDigits from_id ++ '.' ::
    ((sortNat to_list).foldr (fun n acc => natDigits n ++ '-' :: acc) [])
    ++ "@stub.mr".toList

/-- `mrmailbox_rfc724_mid_exists__`: first msgs row carrying the
Message-ID, exposing its `(server_folder, server_uid)`. -/
def mrmailbox_rfc724_mid_exists (db : Db) (mid : List Char) :
    Option (List Char × Nat) :=
  (db.msgs.find? (fun m => m.rfc724_mid == mid)).map
    (fun m => (m.server_folder, m.server_uid))

/-- `mrmailbox_update_server_uid__`. -/
def mrmailbox_update_server_uid (db : Db) (mid folder : List Char)
    (uid : Nat) : Db :=
  { db with msgs := db.msgs.map (fun m =>
      if m.rfc724_mid == mid then
        { m with server_folder := folder, server_uid := uid }
      else m) }

/-- One iteration of the part-insertion loop (lines 763-801): insert one
msgs row for the MIME part; for a text part `txt_raw` is
`subject + "\n\n" + raw body`; push `(chat_id, first_dblocal_id)` onto
`created_db_entries`. -/
def insert_part_step (mp : MimeParser) (mid folder : List Char)
    (uid chat_id from_id to_id : Nat) (ts : Int) (state : Nat)
    (acc : Db × Nat × List (Nat × Nat)) (part : MimePart) :
    Db × Nat × List (Nat × Nat) :=
  let txt_raw :=
    if part.type == MR_MSG_TEXT then
      (mp.subject.getD []) ++ '\n' :: '\n' :: part.msg_raw
    else []
  let adb := acc.1
  let row : Msg := ⟨adb.nextMsgId, mid, folder, uid, chat_id, from_id, to_id,
    ts, part.type, state, mp.is_send_by_messenger, part.msg, txt_raw,
    part.param_packed, part.bytes⟩
  let db := { adb with msgs := adb.msgs ++ [row], nextMsgId := adb.nextMsgId + 1 }
  let first_id := if acc.2.1 == 0 then row.id else acc.2.1
  (db, first_id, acc.2.2 ++ [(chat_id, first_id)])

def insert_part_rows (db : Db) (mp : MimeParser) (mid folder : List Char)
    (uid chat_id from_id to_id : Nat) (ts : Int) (state : Nat) :
    Db × Nat × List (Nat × Nat) :=
  mp.parts.foldl (insert_part_step mp mid folder uid chat_id from_id to_id ts state)
    (db, 0, [])

/-- Modelled from the spec (glossary: ghost Message-IDs use the internal
`MR_GHOST_ID_FORMAT` with the originating local id; the format string is in
a header missing from this snapshot). -/
def ghost_rfc724_mid (first_id : Nat) : List Char :=
  "Gh.".toList ++ natDigits first_id ++ "@mr.ghost".toList

/-- Modelled from the spec (4.E.13: "a short summary of the primary part";
mrmsg.c missing). -/
def mrmsg_get_summarytext_by_raw (msg : List Char) (n : Nat) : List Char :=
  msg.take n

/-- One iteration of the ghost-row loop (lines 816-848). -/
def insert_ghost_step (mp : MimeParser) (gmid gparam gtxt : List Char)
    (from_id : Nat) (ts : Int) (state : Nat)
    (acc : Db × List (Nat × Nat)) (to_id : Nat) : Db × List (Nat × Nat) :=
  let adb := acc.1
  let c := mrmailbox_lookup_real_nchat_by_contact_id adb to_id
  let gchat := if c == 0 then MR_CHAT_ID_TO_DEADDROP else c
  let row : Msg := ⟨adb.nextMsgId, gmid, [], 0, gchat, from_id, to_id, ts,
    MR_MSG_TEXT, state, mp.is_send_by_messenger, gtxt, [], gparam, 0⟩
  ({ adb with msgs := adb.msgs ++ [row], nextMsgId := adb.nextMsgId + 1 },
   acc.2 ++ [(gchat, row.id)])

/-- Lines 805-852: ghost rows for the additional recipients of an
outgoing non-group message. -/
def insert_ghost_rows (db : Db) (mp : MimeParser) (first_id : Nat)
    (to_list : List Nat) (from_id : Nat) (ts : Int) (state : Nat) :
    Db × List (Nat × Nat) :=
  let gmid := ghost_rfc724_mid first_id
  let gparam := 'G' :: '=' :: natDigits first_id
  let gtxt :=
    match mp.parts with
    | [] => []
    | part :: _ => mrmsg_get_summarytext_by_raw part.msg APPROX_SUBJECT_CHARS
  (to_list.drop 1).foldl (insert_ghost_step mp gmid gparam gtxt from_id ts state)
    (db, [])

/-! ## Event selection and emission (lines 854-868 and 988-1004) -/

/-- Lines 854-868: `create_event_to_send` starts as `MR_EVENT_MSGS_CHANGED`
and is only changed for fresh incoming messages. -/
def select_create_event (incoming : Bool) (state : Nat)
    (from_id_blocked : Bool) (chat_id : Nat) (show_deaddrop : Int) : Nat :=
  if incoming && state == MR_IN_FRESH then
    if from_id_blocked then 0
    else if chat_id == MR_CHAT_ID_DEADDROP then
      if show_deaddrop ≠ 0 then MR_EVENT_INCOMING_MSG else MR_EVENT_MSGS_CHANGED
    else MR_EVENT_INCOMING_MSG
  else MR_EVENT_MSGS_CHANGED

/-- Lines 988-996: per-row events fired in cleanup, skipped entirely when
`create_event_to_send` is 0. -/
def emit_created_events (code : Nat) (entries : List (Nat × Nat)) : List Event :=
  if code == 0 then []
  else entries.map (fun p =>
    if code == MR_EVENT_INCOMING_MSG then Event.incomingMsg p.1 p.2
    else Event.msgsChanged p.1 p.2)

/-! ## MDN reports (lines 873-942) -/

/-- Modelled from the spec (4.D `mdn_from_ext`, scenario 6: the sent
message's state becomes OUT_READ; mrmailbox_mdn_from_ext__ is in a part of
mrmailbox.c not in this snapshot): locate the message by Message-ID; when
found and not yet read, mark it OUT_READ and report `(chat_id, msg_id)`. -/
def mrmailbox_mdn_from_ext (db : Db) (mid : List Char) :
    Db × Option (Nat × Nat) :=
  match db.msgs.find? (fun m => m.rfc724_mid == mid) with
  | some m =>
    if m.state ≠ MR_OUT_READ then
      ({ db with msgs := db.msgs.map (fun m2 =>
          if m2.id == m.id then { m2 with state := MR_OUT_READ } else m2) },
       some (m.chat_id, m.id))
    else (db, none)
  | none => (db, none)

def process_reports (db : Db) (mp : MimeParser) : Db × List (Nat × Nat) :=
  if mp.reports.length > 0 then
    let mdns_enabled := db.getConfigInt "mdns_enabled".toList MR_MDNS_DEFAULT_ENABLED
    mp.reports.foldl (fun (acc : Db × List (Nat × Nat)) rep =>
      let (db, rr) := acc
      if rep.is_disposition_notification && mdns_enabled ≠ 0
          && rep.second_is_message_dn then
        match rep.org_msgid with
        | some mid =>
          let (db, hit) := mrmailbox_mdn_from_ext db mid
          match hit with
          | some p => (db, rr ++ [p])
          | none => (db, rr)
        | none => (db, rr)
      else (db, rr))
      (db, [])
  else (db, [])

/-! ## receive_imf (src/mrmailbox.c, lines 480-1007) -/

/-- The observable outcome of one `receive_imf` call: the database after
unlock, the events fired synchronously through `m_cb` while the lock and
the transaction were held (the `CHAT_MODIFIED` of the group resolver),
and the queued events fired in cleanup, after commit/rollback and after
the lock was released. -/
structure ReceiveResult where
  db : Db
  syncEvents : List Event
  queuedEvents : List Event
  deriving DecidableEq, Repr

/-- The chat-resolution step of `receive_imf` (lines 667-725): returns
`(state, from_id, to_id, chat_id, is_group, db, syncEvents)` where
`syncEvents` are the `CHAT_MODIFIED` events the group resolver fired
through `m_cb` while the transaction was open. -/
def resolve_chat (env : Env) (mp : MimeParser) (db3 : Db) (incoming : Bool)
    (known : Bool) (from_id0 : Nat) (to_list : List Nat) (flags : Nat) :
    Nat × Nat × Nat × Nat × Bool × Db × List Event :=
  if incoming then
    let st := if flags &&& MR_IMAP_SEEN ≠ 0 then MR_IN_SEEN else MR_IN_FRESH
    let (g, db4, sync) := lookup_group_by_grpid env db3 mp
      (known && mp.is_send_by_messenger) from_id0 to_list
    if g ≠ 0 then (st, from_id0, MR_CONTACT_ID_SELF, g, true, db4, sync)
    else
      let c1 := mrmailbox_lookup_real_nchat_by_contact_id db4 from_id0
      let (db5, c2) :=
        if c1 == 0 then
          if known && mp.is_send_by_messenger then
            mrmailbox_create_or_lookup_nchat_by_contact_id db4 from_id0
          else if is_reply_to_known_message db4 mp then
            mrmailbox_create_or_lookup_nchat_by_contact_id
              (mrmailbox_scaleup_contact_origin db4 from_id0
                MR_ORIGIN_INCOMING_REPLY_TO) from_id0
          else (db4, 0)
        else (db4, c1)
      (st, from_id0, MR_CONTACT_ID_SELF,
       if c2 == 0 then MR_CHAT_ID_DEADDROP else c2, false, db5, sync)
  else
    match to_list with
    | [] => (MR_OUT_DELIVERED, MR_CONTACT_ID_SELF, 0,
             MR_CHAT_ID_TO_DEADDROP, false, db3, [])
    | to0 :: _ =>
      let (g, db4, sync) := lookup_group_by_grpid env db3 mp true
        MR_CONTACT_ID_SELF to_list
      if g ≠ 0 then
        (MR_OUT_DELIVERED, MR_CONTACT_ID_SELF, to0, g, true, db4, sync)
      else
        let c1 := mrmailbox_lookup_real_nchat_by_contact_id db4 to0
        let (db5, c2) :=
          if c1 == 0 && mp.is_send_by_messenger
              && !(mrmailbox_is_contact_blocked db4 to0) then
            mrmailbox_create_or_lookup_nchat_by_contact_id db4 to0
          else (db4, c1)
        (MR_OUT_DELIVERED, MR_CONTACT_ID_SELF, to0,
         if c2 == 0 then MR_CHAT_ID_TO_DEADDROP else c2, false, db5, sync)

/-- The tail of `receive_imf`'s part-handling (lines 727-1007): timestamp
correction, Message-ID synthesis, dedup (rollback to the state `db0` at
BEGIN, possibly followed by `update_server_uid`), row insertion, ghost
rows, event selection and MDN reports.  Its `ReceiveResult` carries the
final db, the synchronously fired events and the queued events emitted in
cleanup after commit/rollback. -/
def receive_imf_after_resolve (env : Env) (db0 : Db) (mp : MimeParser)
    (server_folder : List Char) (server_uid : Nat) (flags : Nat)
    (rest_mid : Option (List Char)) (rest_ts : Int) (to_list : List Nat)
    (incoming : Bool) (from_id_blocked : Bool)
    (resolved : Nat × Nat × Nat × Nat × Bool × Db × List Event) :
    ReceiveResult :=
  let (st, from_id, to_id, chat_id, is_group, db4, sync) := resolved
  let ts := correct_bad_timestamp env db4 chat_id from_id rest_ts
    (!(flags &&& MR_IMAP_SEEN ≠ 0))
  let mid :=
    match rest_mid with
    | some m => m
    | none => mr_create_incoming_rfc724_mid ts from_id to_list
  match mrmailbox_rfc724_mid_exists db4 mid with
  | some (old_folder, old_uid) =>
    if old_folder ≠ server_folder ∨ old_uid ≠ server_uid then
      ⟨mrmailbox_update_server_uid db0 mid server_folder server_uid, sync, []⟩
    else
      ⟨db0, sync, []⟩
  | none =>
    let (db6, first_id, entries) :=
      insert_part_rows db4 mp mid server_folder server_uid chat_id from_id
        to_id ts st
    let (db7, entries) :=
      if !incoming && !is_group && to_list.length > 1 && first_id ≠ 0 then
        let (db7g, ghostEntries) :=
          insert_ghost_rows db6 mp first_id to_list from_id ts st
        (db7g, entries ++ ghostEntries)
      else (db6, entries)
    let code := select_create_event incoming st from_id_blocked chat_id
      (db7.getConfigInt "show_deaddrop".toList 0)
    let (db8, rr) := process_reports db7 mp
    ⟨db8, sync,
     emit_created_events code entries
       ++ rr.map (fun p => Event.msgRead p.1 p.2)⟩

/-- `receive_imf`.  `mimeOpt = none` models a blob the external MIME
parser could not give a header for (silent drop).  `db0` is the state at
`BEGIN`; a rollback returns to it. -/
def receive_imf (env : Env) (db0 : Db) (mimeOpt : Option MimeParser)
    (server_folder : List Char) (server_uid : Nat) (flags : Nat) :
    ReceiveResult :=
  match mimeOpt with
  | none => ⟨db0, [], []⟩
  | some mp =>
    let incoming0 := scanReturnPath mp.fields
    let (incoming, from_id0, from_id_blocked, known, db1) :=
      resolve_from env db0 incoming0 mp.fields
    let (db2, to_list0) := process_first_to env db1 (!incoming) known mp.fields
    if mp.parts.length > 0 then
      let rest := collect_rest env (!incoming) db2 to_list0 mp.fields
      receive_imf_after_resolve env db0 mp server_folder server_uid flags
        rest.rfc724_mid rest.ts rest.to_list incoming from_id_blocked
        (resolve_chat env mp rest.db incoming known from_id0 rest.to_list flags)
    else
      let (db8, rr) := process_reports db2 mp
      ⟨db8, [], rr.map (fun p => Event.msgRead p.1 p.2)⟩

/-! ## Wake lock (src/mrmailbox.c, lines 1452-1477) -/

/-- `mrmailbox_wake_lock`: increment the counter; fire `WAKE_LOCK(1)`
exactly when the counter becomes 1. -/
def mrmailbox_wake_lock (wake : Int) : Int × List Event :=
  let wake := wake + 1
  (wake, if wake = 1 then [Event.wakeLock 1] else [])

/-- `mrmailbox_wake_unlock`: fire `WAKE_LOCK(0)` exactly when the counter
is 1 at entry, then decrement unconditionally (no clamp at zero). -/
def mrmailbox_wake_unlock (wake : Int) : Int × List Event :=
  (wake - 1, if wake = 1 then [Event.wakeLock 0] else [])

inductive WakeOp where
  | lock
  | unlock
  deriving DecidableEq, Repr

def runWakeOps (st : Int) : List WakeOp → Int × List Event
  | [] => (st, [])
  | op :: rest =>
    let r := match op with
      | .lock => mrmailbox_wake_lock st
      | .unlock => mrmailbox_wake_unlock st
    let r2 := runWakeOps r.1 rest
    (r2.1, r.2 ++ r2.2)

/-! # Theorems on the claims -/

/-! ## C1: failure conditions of `dc_split_armored_data` -/

/-- Any headerline delivered by the scanning loop passed the
`-----BEGIN ` / trailing `-----` test of line 107. -/
theorem scanArmorFuel_isBeginLine (n : Nat) :
    ∀ (buf : List Char) (hl scb pe : Option (List Char))
      (hlr : List Char) (scbr per : Option (List Char)) (b64 : List Char),
      (∀ t, hl = some t → isBeginLine t = true) →
      scanArmorFuel n buf hl scb pe = some (hlr, scbr, per, b64) →
      isBeginLine hlr = true := by
  induction n with
  | zero =>
    intro buf hl scb pe hlr scbr per b64 hhl h
    simp [scanArmorFuel] at h
  | succ n ih =>
    intro buf hl scb pe hlr scbr per b64 hhl h
    rw [scanArmorFuel] at h
    cases hbr : breakAtNewline buf with
    | none => rw [hbr] at h; simp at h
    | some p =>
      obtain ⟨line, rest⟩ := p
      rw [hbr] at h
      cases hl with
      | none =>
        simp only at h
        split_ifs at h with hbl
        · exact ih rest _ scb pe hlr scbr per b64
            (by intro t ht; injection ht with h2; rw [← h2]; exact hbl) h
        · exact ih rest none scb pe hlr scbr per b64 (by intro t ht; cases ht) h
      | some hval =>
        have hv : isBeginLine hval = true := hhl hval rfl
        simp only at h
        split_ifs at h with h1 h2 h3 h4
        · injection h with h; injection h with ha hb; rw [← ha]; exact hv
        · injection h with h; injection h with ha hb; rw [← ha]; exact hv
        · exact ih rest _ _ pe hlr scbr per b64
            (by intro t ht; injection ht with h2; rw [← h2]; exact hv) h
        · exact ih rest _ scb _ hlr scbr per b64
            (by intro t ht; injection ht with h2; rw [← h2]; exact hv) h
        · exact ih rest _ scb pe hlr scbr per b64
            (by intro t ht; injection ht with h2; rw [← h2]; exact hv) h

/-- C1 (amended): `dc_split_armored_data` fails exactly when the line scan
finds no `-----BEGIN X-----` headerline followed by a base64 start, or
when no `-----END ` marker with a tag matching the BEGIN tag follows; on
success the returned headerline slice is a `-----BEGIN X-----` line and
the base64 slice is the trimmed region before the END marker.  An empty
base64 body is NOT rejected (contrary to the original claim): the
function then succeeds with an empty base64 slice. -/
theorem dc_split_armored_data_spec :
    (∀ buf r, dc_split_armored_data buf = some r →
      isBeginLine r.headerline = true ∧
      ∃ b64 pre suf,
        scanArmor (dc_remove_cr_chars buf) none none none =
          some (r.headerline, r.setupcodebegin, r.preferencrypt, b64) ∧
        strstrSplit END_MARK b64 = some (pre, suf) ∧
        (r.headerline.drop 11).isPrefixOf (suf.drop 9) = true ∧
        r.base64 = dc_trim pre)
    ∧ (∀ buf, dc_split_armored_data buf = none →
        scanArmor (dc_remove_cr_chars buf) none none none = none ∨
        ∃ hl scb pe b64,
          scanArmor (dc_remove_cr_chars buf) none none none =
            some (hl, scb, pe, b64) ∧
          (strstrSplit END_MARK b64 = none ∨
            ∃ pre suf, strstrSplit END_MARK b64 = some (pre, suf) ∧
              (hl.drop 11).isPrefixOf (suf.drop 9) = false)) := by
  constructor
  · intro buf r h
    unfold dc_split_armored_data at h
    cases hs : scanArmor (dc_remove_cr_chars buf) none none none with
    | none => rw [hs] at h; simp at h
    | some q =>
      obtain ⟨hl, scb, pe, b64⟩ := q
      rw [hs] at h
      dsimp only at h
      cases hss : strstrSplit END_MARK b64 with
      | none => rw [hss] at h; simp at h
      | some pq =>
        obtain ⟨pre, suf⟩ := pq
        rw [hss] at h
        dsimp only at h
        split_ifs at h with hp
        injection h with h
        subst h
        refine ⟨?_, b64, pre, suf, rfl, hss, hp, rfl⟩
        exact scanArmorFuel_isBeginLine _ _ none none none hl scb pe b64
          (by intro t ht; cases ht) hs
  · intro buf h
    unfold dc_split_armored_data at h
    cases hs : scanArmor (dc_remove_cr_chars buf) none none none with
    | none => exact Or.inl rfl
    | some q =>
      obtain ⟨hl, scb, pe, b64⟩ := q
      rw [hs] at h
      dsimp only at h
      refine Or.inr ⟨hl, scb, pe, b64, rfl, ?_⟩
      cases hss : strstrSplit END_MARK b64 with
      | none => exact Or.inl rfl
      | some pq =>
        obtain ⟨pre, suf⟩ := pq
        rw [hss] at h
        dsimp only at h
        split_ifs at h with hp
        exact Or.inr ⟨pre, suf, rfl, by simp only [Bool.not_eq_true] at hp; exact hp⟩

/-- Witness for C1 (amended): the spec's scenario-1 buffer parses and the
characterization applies at it. -/
theorem dc_split_armored_data_spec_witness :
    isBeginLine (SplitArmoredResult.headerline
      ⟨"-----BEGIN PGP MESSAGE-----".toList, none, some "mutual".toList,
        "AAAA".toList⟩) = true ∧
    ∃ b64 pre suf,
      scanArmor (dc_remove_cr_chars
          "-----BEGIN PGP MESSAGE-----\nVersion: 1\nAutocrypt-Prefer-Encrypt: mutual\n\nAAAA\n-----END PGP MESSAGE-----\n".toList)
          none none none =
        some ("-----BEGIN PGP MESSAGE-----".toList, none, some "mutual".toList, b64) ∧
      strstrSplit END_MARK b64 = some (pre, suf) ∧
      (("-----BEGIN PGP MESSAGE-----".toList).drop 11).isPrefixOf
        (suf.drop 9) = true ∧
      "AAAA".toList = dc_trim pre :=
  dc_split_armored_data_spec.1
    "-----BEGIN PGP MESSAGE-----\nVersion: 1\nAutocrypt-Prefer-Encrypt: mutual\n\nAAAA\n-----END PGP MESSAGE-----\n".toList
    ⟨"-----BEGIN PGP MESSAGE-----".toList, none, some "mutual".toList,
      "AAAA".toList⟩
    (by decide)

/-- C1 counterexample: the buffer `-----BEGIN X-----\n-----END X-----\n`
has an empty base64 body, yet `dc_split_armored_data` returns true (the C
code never checks the base64 slice for emptiness), refuting the claim
that it returns false whenever the base64 body would be empty. -/
theorem dc_split_armored_data_accepts_empty_base64 :
    dc_split_armored_data "-----BEGIN X-----\n-----END X-----\n".toList =
      some ⟨"-----BEGIN X-----".toList, none, none, []⟩ := by decide

/-! ## C10: wake-lock counter -/

/-- C10: `mrmailbox_wake_lock` fires `WAKE_LOCK(1)` exactly when the
counter goes from 0 to 1, `mrmailbox_wake_unlock` fires `WAKE_LOCK(0)`
exactly when the counter is 1 at entry; the counter is not clamped at
zero, so an unlock at 0 drives it to -1, and the following lock (-1 to 0)
fires no event. -/
theorem wake_lock_counter_characterization :
    (∀ st : Int, mrmailbox_wake_lock st =
      (st + 1, if st = 0 then [Event.wakeLock 1] else []))
    ∧ (∀ st : Int, mrmailbox_wake_unlock st =
      (st - 1, if st = 1 then [Event.wakeLock 0] else []))
    ∧ runWakeOps 0 [WakeOp.unlock] = (-1, [])
    ∧ runWakeOps 0 [WakeOp.unlock, WakeOp.lock] = (0, []) := by
  refine ⟨?_, fun st => rfl, by decide, by decide⟩
  intro st
  unfold mrmailbox_wake_lock
  by_cases h : st = 0
  · simp [h]
  · have h1 : st + 1 ≠ 1 := by omega
    simp [h, h1]

/-! ## C7: per-row event selection -/

/-- C7: for a fresh incoming message the per-row event is suppressed when
the sender is blocked (`create_event_to_send = 0`, and then no per-row
event is fired at all); for the DEADDROP chat `INCOMING_MSG` is selected
iff config `show_deaddrop` is truthy (else the initial `MSGS_CHANGED`
remains); for any other chat `INCOMING_MSG` is selected; for outgoing or
non-fresh messages the event is `MSGS_CHANGED`. -/
theorem receive_imf_event_selection :
    (∀ entries, emit_created_events 0 entries = [])
    ∧ (∀ chat_id sd, select_create_event true MR_IN_FRESH true chat_id sd = 0)
    ∧ (∀ sd, select_create_event true MR_IN_FRESH false MR_CHAT_ID_DEADDROP sd
        = (if sd ≠ 0 then MR_EVENT_INCOMING_MSG else MR_EVENT_MSGS_CHANGED))
    ∧ (∀ chat_id sd, chat_id ≠ MR_CHAT_ID_DEADDROP →
        select_create_event true MR_IN_FRESH false chat_id sd = MR_EVENT_INCOMING_MSG)
    ∧ (∀ incoming st blocked chat_id sd, incoming = false ∨ st ≠ MR_IN_FRESH →
        select_create_event incoming st blocked chat_id sd = MR_EVENT_MSGS_CHANGED)
    ∧ (∀ entries, emit_created_events MR_EVENT_INCOMING_MSG entries
        = entries.map (fun p => Event.incomingMsg p.1 p.2))
    ∧ (∀ entries, emit_created_events MR_EVENT_MSGS_CHANGED entries
        = entries.map (fun p => Event.msgsChanged p.1 p.2)) := by
  refine ⟨fun entries => rfl, fun c sd => rfl, fun sd => rfl, ?_, ?_, ?_, ?_⟩
  · intro chat_id sd h
    simp only [select_create_event, MR_IN_FRESH]
    have : (chat_id == MR_CHAT_ID_DEADDROP) = false := by
      simpa [beq_iff_eq] using h
    simp [this]
  · intro incoming st blocked chat_id sd h
    rcases h with h | h
    · simp [select_create_event, h]
    · have : (st == MR_IN_FRESH) = false := by simpa [beq_iff_eq] using h
      simp [select_create_event, this]
  · intro entries
    simp [emit_created_events, MR_EVENT_INCOMING_MSG]
  · intro entries
    simp [emit_created_events, MR_EVENT_MSGS_CHANGED, MR_EVENT_INCOMING_MSG]

/-- Witness for C7: a fresh incoming unblocked message in ordinary chat 5
gets `INCOMING_MSG`. -/
theorem receive_imf_event_selection_witness :
    select_create_event true MR_IN_FRESH false 5 0 = MR_EVENT_INCOMING_MSG :=
  receive_imf_event_selection.2.2.2.1 5 0 (by decide)

/-! ## C2: group-id candidates and priority -/

theorem dropWhile_notDot_of_mem {rest : List Char}
    (h : '.' ∈ rest) :
    ∃ t, rest.dropWhile notDot = '.' :: t := by
  induction rest with
  | nil => simp at h
  | cons c cs ih =>
    by_cases hc : c = '.'
    · subst hc
      exact ⟨cs, by simp [List.dropWhile_cons, notDot]⟩
    · have h' : '.' ∈ cs := by
        rcases List.mem_cons.mp h with h | h
        · exact absurd h.symm hc
        · exact h
      obtain ⟨t, ht⟩ := ih h'
      refine ⟨t, ?_⟩
      rw [List.dropWhile_cons]
      simp only [notDot, hc, decide_not]
      simpa using ht

theorem takeWhile_notDot_append {g : List Char} (more : List Char)
    (hg : '.' ∉ g) :
    (g ++ '.' :: more).takeWhile notDot = g := by
  induction g with
  | nil => simp [List.takeWhile_cons, notDot]
  | cons c cs ih =>
    have hc : c ≠ '.' := fun e => hg (by simp [e])
    have ih' := ih (fun m => hg (List.mem_cons_of_mem _ m))
    rw [List.cons_append, List.takeWhile_cons]
    simp only [notDot, hc, decide_not]
    simpa using ih'

theorem findSome?_append {α β : Type} (f : α → Option β) (l1 l2 : List α) :
    (l1 ++ l2).findSome? f =
      match l1.findSome? f with
      | some x => some x
      | none => l2.findSome? f := by
  induction l1 with
  | nil => simp [List.findSome?]
  | cons a l ih =>
    cases hfa : f a with
    | none => simpa [List.findSome?_cons, hfa] using ih
    | some b => simp [List.findSome?_cons, hfa]

def msgidOfField : ImfField → Option (List Char)
  | .messageId mid => some mid
  | _ => none

theorem applyGroupField_grpid2 (decode : List Char → List Char)
    (acc : GroupHints) (f : ImfField) :
    (applyGroupField decode acc f).grpid2 =
      match msgidOfField f with
      | some mid => extract_grpid_from_messageid mid
      | none => acc.grpid2 := by
  cases f <;> simp [applyGroupField, msgidOfField]
  split_ifs <;> rfl

theorem collectGroupHints_grpid2_aux (decode : List Char → List Char) :
    ∀ (fields : List ImfField) (acc : GroupHints),
      (fields.foldl (applyGroupField decode) acc).grpid2 =
        match (fields.reverse.findSome? msgidOfField) with
        | some mid => extract_grpid_from_messageid mid
        | none => acc.grpid2 := by
  intro fields
  induction fields with
  | nil => intro acc; simp [List.findSome?]
  | cons f rest ih =>
    intro acc
    rw [List.foldl_cons, ih]
    rw [List.reverse_cons, findSome?_append]
    cases hrest : rest.reverse.findSome? msgidOfField with
    | some m => simp
    | none =>
      simp only [List.findSome?_cons]
      cases hf : msgidOfField f with
      | some mid => simp [applyGroupField_grpid2, hf]
      | none => simp [List.findSome?, applyGroupField_grpid2, hf]

/-- C2: the group id used by the resolver is `grpid1 ?? grpid2 ?? grpid3
?? grpid4` (explicit `Chat-Group-ID`/`X-MrGrpId` header first, then
`Message-ID`, then `In-Reply-To`, then `References`); a Message-ID
contributes a candidate exactly when it has the form `Gr.<id>.<more>`
with `strlen(id) == 11` (`grpid2` comes from the last Message-ID field
through that extraction); when no candidate is present the resolver
returns 0 without touching the database or firing events. -/
theorem grpid_priority_and_extraction :
    (∀ mid g, extract_grpid_from_messageid mid = some g ↔
      (g.length = MR_VALID_ID_LEN ∧ ('.' ∉ g) ∧
       ∃ more, mid = 'G' :: 'r' :: '.' :: (g ++ '.' :: more)))
    ∧ (∀ h : GroupHints,
        (h.grpid1.isSome → chosenGrpid h = h.grpid1)
        ∧ (h.grpid1 = none → h.grpid2.isSome → chosenGrpid h = h.grpid2)
        ∧ (h.grpid1 = none → h.grpid2 = none → h.grpid3.isSome →
            chosenGrpid h = h.grpid3)
        ∧ (h.grpid1 = none → h.grpid2 = none → h.grpid3 = none →
            chosenGrpid h = h.grpid4))
    ∧ (∀ decode fields, (collectGroupHints decode fields).grpid2 =
        match fields.reverse.findSome? msgidOfField with
        | some mid => extract_grpid_from_messageid mid
        | none => none)
    ∧ (∀ env db mp create_as_needed from_id to_list,
        chosenGrpid (collectGroupHints env.decode mp.fields) = none →
        lookup_group_by_grpid env db mp create_as_needed from_id to_list
          = (0, db, [])) := by
  refine ⟨?_, ?_, ?_, ?_⟩
  · intro mid g
    constructor
    · intro h
      unfold extract_grpid_from_messageid at h
      split_ifs at h with hlen
      rcases mid with _ | ⟨c1, _ | ⟨c2, _ | ⟨c3, rest⟩⟩⟩
      · simp at h
      · simp at h
      · simp at h
      · dsimp only at h
        split_ifs at h with hchars hmem hlen11
        obtain ⟨e1, e2, e3⟩ := hchars
        subst e1; subst e2; subst e3
        injection h with h
        subst h
        refine ⟨hlen11, ?_, ?_⟩
        · intro hm
          have := List.mem_takeWhile_imp hm
          simp [notDot] at this
        · obtain ⟨t, ht⟩ := dropWhile_notDot_of_mem hmem
          refine ⟨t, ?_⟩
          have hrest : List.takeWhile notDot rest ++ '.' :: t = rest := by
            rw [← ht]; exact List.takeWhile_append_dropWhile notDot rest
          rw [hrest]
    · rintro ⟨hlen, hnotin, more, rfl⟩
      have htw := takeWhile_notDot_append (g := g) more hnotin
      unfold extract_grpid_from_messageid
      have hge : ¬ (('G' :: 'r' :: '.' :: (g ++ '.' :: more)).length < 8) := by
        simp only [List.length_cons, List.length_append, List.length_cons, hlen,
          MR_VALID_ID_LEN]
        omega
      rw [if_neg hge]
      dsimp only
      rw [if_pos ⟨rfl, rfl, rfl⟩]
      rw [if_pos (show '.' ∈ g ++ '.' :: more by simp)]
      simp only [htw]
      rw [if_pos hlen]
  · intro h
    refine ⟨?_, ?_, ?_, ?_⟩
    · intro h1
      obtain ⟨g, hg⟩ := Option.isSome_iff_exists.mp h1
      simp [chosenGrpid, hg]
    · intro h1 h2
      obtain ⟨g, hg⟩ := Option.isSome_iff_exists.mp h2
      simp [chosenGrpid, h1, hg]
    · intro h1 h2 h3
      obtain ⟨g, hg⟩ := Option.isSome_iff_exists.mp h3
      simp [chosenGrpid, h1, h2, hg]
    · intro h1 h2 h3
      simp [chosenGrpid, h1, h2, h3]
  · intro decode fields
    have := collectGroupHints_grpid2_aux decode fields initGroupHints
    simpa [collectGroupHints, initGroupHints] using this
  · intro env db mp create_as_needed from_id to_list h
    unfold lookup_group_by_grpid lookup_group_with_hints
    rw [h]

/-- Witness for C2: a concrete `Gr.`-formed Message-ID satisfies the
extraction characterization, and a header with no candidate makes the
resolver return 0 unchanged. -/
theorem grpid_priority_and_extraction_witness :
    extract_grpid_from_messageid "Gr.abcdefghij1.x@y".toList
      = some "abcdefghij1".toList
    ∧ lookup_group_by_grpid ⟨id, 0⟩
        ⟨[], [], [], [], [], [], 1, 1, 1⟩
        ⟨[ImfField.otherField], false, [], [], none⟩ true 0 []
      = (0, ⟨[], [], [], [], [], [], 1, 1, 1⟩, []) := by
  constructor
  · exact (grpid_priority_and_extraction.1 _ _).mpr
      ⟨by decide, by decide, "x@y".toList, by decide⟩
  · exact grpid_priority_and_extraction.2.2.2 ⟨id, 0⟩ _ _ true 0 [] (by decide)

/-! ## C5: member-list recreation -/

theorem is_contact_in_chat_iff (db : Db) (c x : Nat) :
    mrmailbox_is_contact_in_chat db c x = true ↔ (c, x) ∈ db.chats_contacts := by
  unfold mrmailbox_is_contact_in_chat
  rw [List.any_eq_true]
  constructor
  · rintro ⟨p, hp, he⟩
    simp only [Bool.and_eq_true, beq_iff_eq] at he
    obtain ⟨h1, h2⟩ := he
    have : p = (c, x) := by
      cases p; simp at h1 h2; simp [h1, h2]
    rw [← this]; exact hp
  · intro hm
    exact ⟨(c, x), hm, by simp⟩

theorem add_contact_to_chat_contacts (db : Db) (c i : Nat) :
    (mrmailbox_add_contact_to_chat db c i).contacts = db.contacts := by
  unfold mrmailbox_add_contact_to_chat
  split_ifs <;> rfl

theorem add_contact_to_chat_chats (db : Db) (c i : Nat) :
    (mrmailbox_add_contact_to_chat db c i).chats = db.chats := by
  unfold mrmailbox_add_contact_to_chat
  split_ifs <;> rfl

theorem add_to_id_step_contacts (chat_id : Nat) (self_addr : List Char)
    (skip : Option (List Char)) (db : Db) (to_id : Nat) :
    (add_to_id_step chat_id self_addr skip db to_id).contacts = db.contacts := by
  unfold add_to_id_step
  split_ifs
  · exact add_contact_to_chat_contacts db chat_id to_id
  · rfl

theorem contact_addr_equals_congr {db1 db2 : Db}
    (h : db1.contacts = db2.contacts) (i : Nat) (a : List Char) :
    mrmailbox_contact_addr_equals db1 i a = mrmailbox_contact_addr_equals db2 i a := by
  unfold mrmailbox_contact_addr_equals Db.findContact
  rw [h]

theorem mem_add_contact_to_chat (db : Db) (c i a b : Nat) :
    (a, b) ∈ (mrmailbox_add_contact_to_chat db c i).chats_contacts ↔
      (a, b) ∈ db.chats_contacts ∨ (a = c ∧ b = i) := by
  unfold mrmailbox_add_contact_to_chat
  split_ifs with hp
  · constructor
    · exact Or.inl
    · rintro (h | ⟨rfl, rfl⟩)
      · exact h
      · exact (is_contact_in_chat_iff db a b).mp hp
  · simp only [List.mem_append, List.mem_singleton, Prod.mk.injEq]

theorem mem_delete_chat_members (db : Db) (c a b : Nat) :
    (a, b) ∈ (sql_delete_chat_members db c).chats_contacts ↔
      (a, b) ∈ db.chats_contacts ∧ a ≠ c := by
  unfold sql_delete_chat_members
  simp [List.mem_filter]

theorem foldl_add_to_id_step_spec (chat_id : Nat) (self_addr : List Char)
    (skip : Option (List Char)) :
    ∀ (to_list : List Nat) (db : Db),
      (to_list.foldl (add_to_id_step chat_id self_addr skip) db).contacts
          = db.contacts
      ∧ ∀ a b,
        ((a, b) ∈ (to_list.foldl (add_to_id_step chat_id self_addr skip) db).chats_contacts
          ↔ (a, b) ∈ db.chats_contacts
            ∨ (a = chat_id ∧ b ∈ to_list
               ∧ mrmailbox_contact_addr_equals db b self_addr = false
               ∧ (∀ s, skip = some s →
                   mrmailbox_contact_addr_equals db b s = false))) := by
  intro to_list
  induction to_list with
  | nil => intro db; exact ⟨rfl, fun a b => by simp⟩
  | cons t ts ih =>
    intro db
    rw [List.foldl_cons]
    obtain ⟨ihc, ihm⟩ := ih (add_to_id_step chat_id self_addr skip db t)
    have hc1 : (add_to_id_step chat_id self_addr skip db t).contacts = db.contacts :=
      add_to_id_step_contacts chat_id self_addr skip db t
    refine ⟨by rw [ihc, hc1], ?_⟩
    intro a b
    rw [ihm a b]
    have haddr : ∀ i ar, mrmailbox_contact_addr_equals
        (add_to_id_step chat_id self_addr skip db t) i ar
        = mrmailbox_contact_addr_equals db i ar :=
      fun i ar => contact_addr_equals_congr hc1 i ar
    simp only [haddr]
    unfold add_to_id_step
    split_ifs with hcond
    · rw [mem_add_contact_to_chat]
      simp only [Bool.and_eq_true, Bool.not_eq_true', Bool.or_eq_true,
        beq_iff_eq] at hcond
      obtain ⟨hself, hskip⟩ := hcond
      constructor
      · rintro ((h | ⟨rfl, rfl⟩) | ⟨rfl, hmem, hse, hsk⟩)
        · exact Or.inl h
        · refine Or.inr ⟨rfl, List.mem_cons_self _ _, hself, ?_⟩
          intro s hs
          rcases hskip with h | h
          · rw [hs] at h; cases h
          · rw [hs] at h; simpa using h
        · exact Or.inr ⟨rfl, List.mem_cons_of_mem _ hmem, hse, hsk⟩
      · rintro (h | ⟨rfl, hmem, hse, hsk⟩)
        · exact Or.inl (Or.inl h)
        · rcases List.mem_cons.mp hmem with rfl | hmem'
          · exact Or.inl (Or.inr ⟨rfl, rfl⟩)
          · exact Or.inr ⟨rfl, hmem', hse, hsk⟩
    · constructor
      · rintro (h | ⟨rfl, hmem, hse, hsk⟩)
        · exact Or.inl h
        · exact Or.inr ⟨rfl, List.mem_cons_of_mem _ hmem, hse, hsk⟩
      · rintro (h | ⟨rfl, hmem, hse, hsk⟩)
        · exact Or.inl h
        · rcases List.mem_cons.mp hmem with rfl | hmem'
          · exfalso
            apply hcond
            rw [Bool.and_eq_true]
            refine ⟨by rw [Bool.not_eq_true']; exact hse, ?_⟩
            cases hs : skip with
            | none => simp
            | some s =>
              have hf := hsk s hs
              simp [hf]
          · exact Or.inr ⟨rfl, hmem', hse, hsk⟩

theorem recreate_self_stage_contacts (chat_id : Nat) (self_addr : List Char)
    (skip : Option (List Char)) (db : Db) :
    (recreate_self_stage chat_id self_addr skip db).contacts = db.contacts := by
  unfold recreate_self_stage
  split_ifs
  · exact add_contact_to_chat_contacts db chat_id MR_CONTACT_ID_SELF
  · rfl

theorem recreate_from_stage_contacts (chat_id : Nat) (self_addr : List Char)
    (skip : Option (List Char)) (from_id : Nat) (db : Db) :
    (recreate_from_stage chat_id self_addr skip from_id db).contacts
      = db.contacts := by
  unfold recreate_from_stage
  split_ifs
  · exact add_contact_to_chat_contacts db chat_id from_id
  · rfl
  · rfl

theorem mem_recreate_self_stage (chat_id : Nat) (self_addr : List Char)
    (skip : Option (List Char)) (db : Db) (a b : Nat) :
    (a, b) ∈ (recreate_self_stage chat_id self_addr skip db).chats_contacts ↔
      (a, b) ∈ db.chats_contacts
      ∨ (a = chat_id ∧ b = MR_CONTACT_ID_SELF
         ∧ ∀ s, skip = some s → strcaseEq self_addr s = false) := by
  unfold recreate_self_stage
  split_ifs with hc
  · rw [mem_add_contact_to_chat]
    constructor
    · rintro (h | ⟨rfl, rfl⟩)
      · exact Or.inl h
      · refine Or.inr ⟨rfl, rfl, ?_⟩
        intro s hs
        rw [hs] at hc
        simpa using hc
    · rintro (h | ⟨rfl, rfl, _⟩)
      · exact Or.inl h
      · exact Or.inr ⟨rfl, rfl⟩
  · constructor
    · exact Or.inl
    · rintro (h | ⟨rfl, rfl, hall⟩)
      · exact h
      · exfalso
        apply hc
        cases hs : skip with
        | none => simp
        | some s => simp [hall s hs]

theorem mem_recreate_from_stage (chat_id : Nat) (self_addr : List Char)
    (skip : Option (List Char)) (from_id : Nat) (db : Db) (a b : Nat) :
    (a, b) ∈ (recreate_from_stage chat_id self_addr skip from_id db).chats_contacts ↔
      (a, b) ∈ db.chats_contacts
      ∨ (a = chat_id ∧ b = from_id ∧ from_id > MR_CONTACT_ID_LAST_SPECIAL
         ∧ mrmailbox_contact_addr_equals db from_id self_addr = false
         ∧ ∀ s, skip = some s →
             mrmailbox_contact_addr_equals db from_id s = false) := by
  unfold recreate_from_stage
  split_ifs with h1 h2
  · rw [mem_add_contact_to_chat]
    simp only [Bool.and_eq_true, Bool.not_eq_true', Bool.or_eq_true,
      beq_iff_eq] at h2
    obtain ⟨hself, hskip⟩ := h2
    constructor
    · rintro (h | ⟨rfl, rfl⟩)
      · exact Or.inl h
      · refine Or.inr ⟨rfl, rfl, h1, hself, ?_⟩
        intro s hs
        rcases hskip with h | h
        · rw [hs] at h; cases h
        · rw [hs] at h; simpa using h
    · rintro (h | ⟨rfl, rfl, _, _, _⟩)
      · exact Or.inl h
      · exact Or.inr ⟨rfl, rfl⟩
  · constructor
    · exact Or.inl
    · rintro (h | ⟨rfl, rfl, _, hself, hsk⟩)
      · exact h
      · exfalso
        apply h2
        rw [Bool.and_eq_true]
        refine ⟨by rw [Bool.not_eq_true']; exact hself, ?_⟩
        cases hs : skip with
        | none => simp
        | some s => simp [hsk s hs]
  · constructor
    · exact Or.inl
    · rintro (h | ⟨rfl, rfl, hgt, _, _⟩)
      · exact h
      · exact absurd hgt h1

theorem recreate_member_list_mem (db : Db) (chat_id : Nat)
    (self_addr : List Char) (skip : Option (List Char)) (from_id : Nat)
    (to_list : List Nat) (a b : Nat) :
    (a, b) ∈ (recreate_member_list_db db chat_id self_addr skip from_id
        to_list).chats_contacts ↔
      ((a, b) ∈ db.chats_contacts ∧ a ≠ chat_id)
      ∨ (a = chat_id ∧ b = MR_CONTACT_ID_SELF
          ∧ ∀ s, skip = some s → strcaseEq self_addr s = false)
      ∨ (a = chat_id ∧ b = from_id ∧ from_id > MR_CONTACT_ID_LAST_SPECIAL
          ∧ mrmailbox_contact_addr_equals db from_id self_addr = false
          ∧ ∀ s, skip = some s →
              mrmailbox_contact_addr_equals db from_id s = false)
      ∨ (a = chat_id ∧ b ∈ to_list
          ∧ mrmailbox_contact_addr_equals db b self_addr = false
          ∧ ∀ s, skip = some s →
              mrmailbox_contact_addr_equals db b s = false) := by
  unfold recreate_member_list_db
  have hdelc : (sql_delete_chat_members db chat_id).contacts = db.contacts := rfl
  have hc2 : (recreate_self_stage chat_id self_addr skip
      (sql_delete_chat_members db chat_id)).contacts = db.contacts := by
    rw [recreate_self_stage_contacts]; exact hdelc
  have hc3 : (recreate_from_stage chat_id self_addr skip from_id
      (recreate_self_stage chat_id self_addr skip
        (sql_delete_chat_members db chat_id))).contacts = db.contacts := by
    rw [recreate_from_stage_contacts, hc2]
  obtain ⟨-, hfold⟩ := foldl_add_to_id_step_spec chat_id self_addr skip to_list
    (recreate_from_stage chat_id self_addr skip from_id
      (recreate_self_stage chat_id self_addr skip
        (sql_delete_chat_members db chat_id)))
  rw [hfold a b]
  rw [mem_recreate_from_stage]
  rw [mem_recreate_self_stage]
  rw [mem_delete_chat_members]
  simp only [contact_addr_equals_congr hc3, contact_addr_equals_congr hc2]
  tauto

/-- C5: whenever the member list is recreated (`recreate_member_list`,
reached exactly when a chat was just created or an Added/Removed header
is present): after the run, `x` is a member of the chat iff `x` is SELF
and the self address is not the Removed target, or `x` is `from_id`,
`from_id` is above LAST_SPECIAL and its address equals neither the self
address nor the Removed target, or `x` is in `to_list` and passes the
same two address filters; membership of every other chat is untouched
(the old member list was cleared first). -/
theorem recreate_member_list_spec :
    ∀ (db : Db) (chat_id : Nat) (self_addr : List Char)
      (skip : Option (List Char)) (from_id : Nat) (to_list : List Nat) (x : Nat),
      (mrmailbox_is_contact_in_chat
          (recreate_member_list_db db chat_id self_addr skip from_id to_list)
          chat_id x = true ↔
        (x = MR_CONTACT_ID_SELF
           ∧ ∀ s, skip = some s → strcaseEq self_addr s = false)
        ∨ (x = from_id ∧ from_id > MR_CONTACT_ID_LAST_SPECIAL
           ∧ mrmailbox_contact_addr_equals db from_id self_addr = false
           ∧ ∀ s, skip = some s →
               mrmailbox_contact_addr_equals db from_id s = false)
        ∨ (x ∈ to_list
           ∧ mrmailbox_contact_addr_equals db x self_addr = false
           ∧ ∀ s, skip = some s →
               mrmailbox_contact_addr_equals db x s = false))
      ∧ (∀ c2, c2 ≠ chat_id →
          mrmailbox_is_contact_in_chat
            (recreate_member_list_db db chat_id self_addr skip from_id to_list)
            c2 x
          = mrmailbox_is_contact_in_chat db c2 x) := by
  intro db chat_id self_addr skip from_id to_list x
  constructor
  · rw [is_contact_in_chat_iff,
      recreate_member_list_mem db chat_id self_addr skip from_id to_list chat_id x]
    tauto
  · intro c2 hne
    have h1 := is_contact_in_chat_iff
      (recreate_member_list_db db chat_id self_addr skip from_id to_list) c2 x
    have h2 := is_contact_in_chat_iff db c2 x
    have hmem := recreate_member_list_mem db chat_id self_addr skip from_id
      to_list c2 x
    have : (c2, x) ∈ (recreate_member_list_db db chat_id self_addr skip from_id
        to_list).chats_contacts ↔ (c2, x) ∈ db.chats_contacts := by
      rw [hmem]
      constructor
      · rintro (⟨h, -⟩ | ⟨rfl, -⟩ | ⟨rfl, -⟩ | ⟨rfl, -⟩)
        · exact h
        all_goals exact absurd rfl hne
      · intro h
        exact Or.inl ⟨h, hne⟩
    rw [← h1, ← h2] at this
    cases hb1 : mrmailbox_is_contact_in_chat
        (recreate_member_list_db db chat_id self_addr skip from_id to_list) c2 x
    · cases hb2 : mrmailbox_is_contact_in_chat db c2 x
      · rfl
      · rw [hb1, hb2] at this
        simpa using this.mpr rfl
    · cases hb2 : mrmailbox_is_contact_in_chat db c2 x
      · rw [hb1, hb2] at this
        simpa using this.mp rfl
      · rfl

/-- The database of the C5 witness: one real contact (id 10, address
f@x.org) and two stale membership rows. -/
def c5db : Db :=
  ⟨[⟨10, "f@x.org".toList, [], 16, false⟩], [], [(10, 10), (7, 10)], [], [],
    [("configured_addr".toList, "me@x.org".toList)], 11, 11, 1⟩

/-- Witness for C5: a concrete run with a Removed target naming the
sender keeps `from_id` (= 10) out of the recreated chat, and does not
change membership of another chat. -/
theorem recreate_member_list_spec_witness :
    ((mrmailbox_is_contact_in_chat
        (recreate_member_list_db c5db 10 "me@x.org".toList
          (some "f@x.org".toList) 10 []) 10 10 = true ↔
      (10 = MR_CONTACT_ID_SELF
         ∧ ∀ s, (some "f@x.org".toList : Option (List Char)) = some s →
             strcaseEq "me@x.org".toList s = false)
      ∨ (10 = 10 ∧ 10 > MR_CONTACT_ID_LAST_SPECIAL
         ∧ mrmailbox_contact_addr_equals c5db 10 "me@x.org".toList = false
         ∧ ∀ s, (some "f@x.org".toList : Option (List Char)) = some s →
             mrmailbox_contact_addr_equals c5db 10 s = false)
      ∨ (10 ∈ ([] : List Nat)
         ∧ mrmailbox_contact_addr_equals c5db 10 "me@x.org".toList = false
         ∧ ∀ s, (some "f@x.org".toList : Option (List Char)) = some s →
             mrmailbox_contact_addr_equals c5db 10 s = false))
    ∧ mrmailbox_is_contact_in_chat
        (recreate_member_list_db c5db 10 "me@x.org".toList
          (some "f@x.org".toList) 10 []) 7 10
      = mrmailbox_is_contact_in_chat c5db 7 10) :=
  ⟨(recreate_member_list_spec c5db 10 "me@x.org".toList
      (some "f@x.org".toList) 10 [] 10).1,
   (recreate_member_list_spec c5db 10 "me@x.org".toList
      (some "f@x.org".toList) 10 [] 10).2 7 (by decide)⟩

/-! ## C4: group-name change -/

/-- C4 (amended): for a resolved existing group chat (found by grpid, the
sender being a member) with neither an Added nor a Removed member header,
a present `Chat-Group-Name-Changed` (or `X-MrGrpNameChanged`) header with
a decoded group name of length strictly below 200 updates the chat's name
and fires one `CHAT_MODIFIED` event; the code's bound is
`strlen(grpname) < 200`, so a name of exactly 200 characters is NOT
accepted (contrary to the original claim). -/
theorem group_name_change_applied (env : Env) (db : Db) (mp : MimeParser)
    (create_as_needed : Bool) (from_id : Nat) (to_list : List Nat)
    (g nm : List Char) (c : Chat)
    (hg : chosenGrpid (collectGroupHints env.decode mp.fields) = some g)
    (hfind : db.chats.find? (fun ch => ch.grpid == some g) = some c)
    (hid : MR_CHAT_ID_LAST_SPECIAL < c.id)
    (hmem : mrmailbox_is_contact_in_chat db c.id from_id = true)
    (hadd : (collectGroupHints env.decode mp.fields).addToGrp = none)
    (hrem : (collectGroupHints env.decode mp.fields).removeFromGrp = none)
    (hnc : (collectGroupHints env.decode mp.fields).grpNameChanged = true)
    (hnm : (collectGroupHints env.decode mp.fields).grpname = some nm)
    (hlen : nm.length < 200) :
    (lookup_group_by_grpid env db mp create_as_needed from_id to_list).2
      = (sql_update_chat_name db c.id nm, [Event.chatModified c.id]) := by
  have hid9 : 9 < c.id := hid
  have hidne : (c.id == 0) = false := by
    simp only [beq_eq_false_iff_ne, ne_eq]
    omega
  have hle : (c.id ≤ MR_CHAT_ID_LAST_SPECIAL) = False := by
    simp only [eq_iff_iff, iff_false, not_le]
    exact hid
  unfold lookup_group_by_grpid lookup_group_with_hints lookup_group_commands
  rw [hg]
  simp only [hfind, Option.map_some', Option.getD_some, hmem, hadd, hrem, hnc,
    hnm, hidne, hle, Bool.not_true, Bool.and_false, Bool.false_and,
    Option.isSome_some, Option.isSome_none, Bool.or_false, Bool.false_or,
    Bool.and_true, Bool.true_and, if_false, if_true, hlen,
    beq_self_eq_true, ite_false, ite_true,
    Bool.false_eq_true, decide_True, decide_False]

/-- The database of the C4 fixtures: an existing group chat 10 with
grpid `abcdefghij1` whose member list contains the sender (contact 1 =
SELF). -/
def c4db : Db :=
  ⟨[], [⟨10, MR_CHAT_GROUP, "Team".toList, some "abcdefghij1".toList⟩],
   [(10, 1)], [], [], [("configured_addr".toList, "me@x.org".toList)],
   20, 11, 100⟩

/-- A header renaming group `abcdefghij1` to `nm`. -/
def c4mp (nm : List Char) : MimeParser :=
  ⟨[.optionalField "Chat-Group-ID".toList "abcdefghij1".toList,
    .optionalField "Chat-Group-Name".toList nm,
    .optionalField "Chat-Group-Name-Changed".toList "1".toList],
   true, [], [], none⟩

set_option maxRecDepth 8000 in
/-- Witness for C4 (amended): a 199-character name is applied and fires
`CHAT_MODIFIED`. -/
theorem group_name_change_applied_witness :
    (lookup_group_by_grpid ⟨id, 0⟩ c4db (c4mp (List.replicate 199 'b'))
        false 1 []).2
      = (sql_update_chat_name c4db 10 (List.replicate 199 'b'),
         [Event.chatModified 10]) :=
  group_name_change_applied ⟨id, 0⟩ c4db (c4mp (List.replicate 199 'b'))
    false 1 [] "abcdefghij1".toList (List.replicate 199 'b')
    ⟨10, MR_CHAT_GROUP, "Team".toList, some "abcdefghij1".toList⟩
    (by decide) (by decide) (by decide) (by decide) (by decide) (by decide)
    (by decide) (by decide) (by decide)

set_option maxRecDepth 8000 in
/-- C4 counterexample: with a name of exactly 200 characters the chat is
resolved but the name is NOT updated and no `CHAT_MODIFIED` event fires
(the code requires `strlen(grpname) < 200`), refuting the claim that a
name of exactly 200 characters is accepted. -/
theorem group_name_change_rejects_200 :
    lookup_group_by_grpid ⟨id, 0⟩ c4db (c4mp (List.replicate 200 'a')) false 1 []
      = (10, c4db, [])
    ∧ (collectGroupHints id (c4mp (List.replicate 200 'a')).fields).grpNameChanged
      = true
    ∧ (collectGroupHints id (c4mp (List.replicate 200 'a')).fields).grpname
      = some (List.replicate 200 'a')
    ∧ (List.replicate 200 'a').length = 200 := by
  refine ⟨by decide, by decide, by decide, by decide⟩

/-! ## C3: group creation and TRASH routing -/

theorem add_to_id_step_chats (chat_id : Nat) (self_addr : List Char)
    (skip : Option (List Char)) (db : Db) (to_id : Nat) :
    (add_to_id_step chat_id self_addr skip db to_id).chats = db.chats := by
  unfold add_to_id_step
  split_ifs
  · exact add_contact_to_chat_chats db chat_id to_id
  · rfl

theorem foldl_add_to_id_step_chats (chat_id : Nat) (self_addr : List Char)
    (skip : Option (List Char)) :
    ∀ (to_list : List Nat) (db : Db),
      (to_list.foldl (add_to_id_step chat_id self_addr skip) db).chats
        = db.chats := by
  intro to_list
  induction to_list with
  | nil => intro db; rfl
  | cons t ts ih =>
    intro db
    rw [List.foldl_cons, ih, add_to_id_step_chats]

theorem recreate_self_stage_chats (chat_id : Nat) (self_addr : List Char)
    (skip : Option (List Char)) (db : Db) :
    (recreate_self_stage chat_id self_addr skip db).chats = db.chats := by
  unfold recreate_self_stage
  split_ifs
  · exact add_contact_to_chat_chats db chat_id MR_CONTACT_ID_SELF
  · rfl

theorem recreate_from_stage_chats (chat_id : Nat) (self_addr : List Char)
    (skip : Option (List Char)) (from_id : Nat) (db : Db) :
    (recreate_from_stage chat_id self_addr skip from_id db).chats = db.chats := by
  unfold recreate_from_stage
  split_ifs
  · exact add_contact_to_chat_chats db chat_id from_id
  · rfl
  · rfl

theorem recreate_member_list_db_chats (db : Db) (chat_id : Nat)
    (self_addr : List Char) (skip : Option (List Char)) (from_id : Nat)
    (to_list : List Nat) :
    (recreate_member_list_db db chat_id self_addr skip from_id to_list).chats
      = db.chats := by
  unfold recreate_member_list_db
  rw [foldl_add_to_id_step_chats, recreate_from_stage_chats,
    recreate_self_stage_chats]
  rfl

theorem sql_update_chat_name_grpid_exists (db : Db) (cid : Nat)
    (nm g : List Char) :
    (∃ c ∈ (sql_update_chat_name db cid nm).chats, c.grpid = some g)
      ↔ (∃ c ∈ db.chats, c.grpid = some g) := by
  unfold sql_update_chat_name
  constructor
  · rintro ⟨c, hc, hgr⟩
    rw [List.mem_map] at hc
    obtain ⟨c0, hc0, rfl⟩ := hc
    refine ⟨c0, hc0, ?_⟩
    revert hgr
    split_ifs <;> intro hgr <;> exact hgr
  · rintro ⟨c, hc, hgr⟩
    refine ⟨if c.id == cid then { c with name := nm } else c,
      List.mem_map_of_mem _ hc, ?_⟩
    split_ifs <;> exact hgr

theorem lookup_group_commands_grpid_exists (db : Db) (mp : MimeParser)
    (h : GroupHints) (chat_id : Nat) (self_addr : List Char) (created : Bool)
    (from_id : Nat) (to_list : List Nat) (g : List Char) :
    (∃ c ∈ (lookup_group_commands db mp h chat_id self_addr created from_id
        to_list).2.1.chats, c.grpid = some g)
      ↔ (∃ c ∈ db.chats, c.grpid = some g) := by
  unfold lookup_group_commands
  dsimp only
  split <;> split <;> (try split) <;>
    simp [recreate_member_list_db_chats, sql_update_chat_name_grpid_exists]

/-- C3: with a group id present and no existing chat for it, a new group
chat (a chat carrying that grpid) is created exactly when creation is
allowed, a group name is present, no `Chat-Group-Member-Removed` header is
present, and either the group was not explicitly left or a
`Chat-Group-Member-Added` header names the self address; when creation
does not happen and the group was explicitly left, the resolver returns
the TRASH chat id with the database untouched, so the message is recorded
but suppressed. -/
theorem group_creation_and_trash (env : Env) (db : Db) (mp : MimeParser)
    (create_as_needed : Bool) (from_id : Nat) (to_list : List Nat)
    (g : List Char)
    (hg : chosenGrpid (collectGroupHints env.decode mp.fields) = some g)
    (hnone : db.chats.find? (fun ch => ch.grpid == some g) = none)
    (hnext : MR_CHAT_ID_LAST_SPECIAL < db.nextChatId) :
    ((∃ c ∈ (lookup_group_by_grpid env db mp create_as_needed from_id
        to_list).2.1.chats, c.grpid = some g) ↔
      (create_as_needed
        && (collectGroupHints env.decode mp.fields).grpname.isSome
        && ((collectGroupHints env.decode mp.fields).removeFromGrp == none)
        && (!(mrmailbox_group_explicitly_left db g)
            || ((collectGroupHints env.decode mp.fields).addToGrp.isSome
                && strcaseEq (db.getConfig "configured_addr".toList [])
                  ((collectGroupHints env.decode mp.fields).addToGrp.getD []))))
        = true)
    ∧ ((create_as_needed
        && (collectGroupHints env.decode mp.fields).grpname.isSome
        && ((collectGroupHints env.decode mp.fields).removeFromGrp == none)
        && (!(mrmailbox_group_explicitly_left db g)
            || ((collectGroupHints env.decode mp.fields).addToGrp.isSome
                && strcaseEq (db.getConfig "configured_addr".toList [])
                  ((collectGroupHints env.decode mp.fields).addToGrp.getD []))))
          = false →
        mrmailbox_group_explicitly_left db g = true →
        lookup_group_by_grpid env db mp create_as_needed from_id to_list
          = (MR_CHAT_ID_TRASH, db, [])) := by
  have hnext9 : 9 < db.nextChatId := hnext
  unfold lookup_group_by_grpid lookup_group_with_hints
  rw [hg]
  simp only [hnone, Option.map_none', Option.getD_none, ne_eq,
    not_true_eq_false, decide_False, Bool.false_and, Bool.if_false_left,
    Bool.not_eq_true', beq_self_eq_true, Bool.true_and, if_false, ite_false]
  cases hX : (create_as_needed
      && (collectGroupHints env.decode mp.fields).grpname.isSome
      && ((collectGroupHints env.decode mp.fields).removeFromGrp == none)
      && (!(mrmailbox_group_explicitly_left db g)
          || ((collectGroupHints env.decode mp.fields).addToGrp.isSome
              && strcaseEq (db.getConfig "configured_addr".toList [])
                ((collectGroupHints env.decode mp.fields).addToGrp.getD [])))) with
  | false =>
    simp only [hX, Bool.false_eq_true, if_false, ite_false]
    have hle : (0 ≤ MR_CHAT_ID_LAST_SPECIAL) = True := by
      simp [MR_CHAT_ID_LAST_SPECIAL]
    simp only [hle, if_true, ite_true]
    have hnochat : ¬ ∃ c ∈ db.chats, c.grpid = some g := by
      rintro ⟨c, hc, hgr⟩
      have := List.find?_eq_none.mp hnone c hc
      simp [hgr] at this
    constructor
    · constructor
      · intro hex
        exact absurd hex hnochat
      · intro hfalse
        cases hfalse
    · intro _ hleft
      simp [hleft]
  | true =>
    simp only [hX, if_true, ite_true]
    have hins2 : (sql_insert_chat db MR_CHAT_GROUP
        ((collectGroupHints env.decode mp.fields).grpname.getD [])
        (some g)).2 = db.nextChatId := rfl
    have hle : (db.nextChatId ≤ MR_CHAT_ID_LAST_SPECIAL) = False := by
      simp only [eq_iff_iff, iff_false, not_le]
      exact hnext
    simp only [sql_insert_chat, hle, if_false, ite_false, Bool.false_eq_true]
    constructor
    · rw [lookup_group_commands_grpid_exists]
      simp only [iff_true]
      exact ⟨⟨db.nextChatId, MR_CHAT_GROUP,
        (collectGroupHints env.decode mp.fields).grpname.getD [], some g⟩,
        by simp, rfl⟩
    · intro hfalse
      cases hfalse

/-- The database of the C3 witness: no chats, group `abcdefghij1`
explicitly left. -/
def c3db : Db :=
  ⟨[], [], [], [], ["abcdefghij1".toList],
   [("configured_addr".toList, "me@x.org".toList)], 20, 11, 100⟩

/-- A creating header (group id + name) without a Member-Added header. -/
def c3mp : MimeParser :=
  ⟨[.optionalField "Chat-Group-ID".toList "abcdefghij1".toList,
    .optionalField "Chat-Group-Name".toList "Team".toList],
   true, [], [], none⟩

/-- Witness for C3: the left group is not recreated (no Added header
naming self) and the resolver answers TRASH with the database
untouched. -/
theorem group_creation_and_trash_witness :
    lookup_group_by_grpid ⟨id, 0⟩ c3db c3mp true 15 []
      = (MR_CHAT_ID_TRASH, c3db, []) :=
  (group_creation_and_trash ⟨id, 0⟩ c3db c3mp true 15 [] "abcdefghij1".toList
    (by decide) (by decide) (by decide)).2 (by decide) (by decide)

/-! ## C6: incoming/outgoing classification -/

theorem add_or_lookup_contact_config (db : Db) (nameOpt : Option (List Char))
    (addr : List Char) (origin : Nat) :
    (mrmailbox_add_or_lookup_contact db nameOpt addr origin).1.config
      = db.config := by
  unfold mrmailbox_add_or_lookup_contact
  rcases h : db.contacts.find? (fun c => strcaseEq c.addr addr) with _ | c <;>
    simp [h]

theorem getConfig_congr {db1 db2 : Db} (h : db1.config = db2.config)
    (k d : List Char) : db1.getConfig k d = db2.getConfig k d := by
  unfold Db.getConfig
  rw [h]

theorem add_or_lookup_contact_by_addr_check (env : Env) (db : Db)
    (nameOpt : Option (List Char)) (addr : List Char) (origin : Nat)
    (ids : List Nat) :
    (add_or_lookup_contact_by_addr env db nameOpt addr origin ids).2.2
      = strcaseEq (db.getConfig "configured_addr".toList []) addr
    ∧ (add_or_lookup_contact_by_addr env db nameOpt addr origin ids).1.config
      = db.config := by
  unfold add_or_lookup_contact_by_addr
  dsimp only
  have hcfg := add_or_lookup_contact_config db (nameOpt.map env.decode)
    addr origin
  split_ifs with h1 h2
  · exact ⟨h1.symm, rfl⟩
  · have h1' : strcaseEq (db.getConfig "configured_addr".toList []) addr
        = false := by
      cases hb : strcaseEq (db.getConfig "configured_addr".toList []) addr
      · rfl
      · exact absurd hb h1
    exact ⟨h1'.symm, hcfg⟩
  · have h1' : strcaseEq (db.getConfig "configured_addr".toList []) addr
        = false := by
      cases hb : strcaseEq (db.getConfig "configured_addr".toList []) addr
      · rfl
      · exact absurd hb h1
    exact ⟨h1'.symm, hcfg⟩

theorem mailbox_list_check_self (env : Env) (origin : Nat) :
    ∀ (mbs : List Mailbox) (db : Db) (ids : List Nat) (cs : Bool),
      ((add_or_lookup_contacts_by_mailbox_list env db mbs origin ids cs).2.2 =
        match mbs.getLast? with
        | some mb => strcaseEq (db.getConfig "configured_addr".toList [])
            mb.addr_spec
        | none => cs)
      ∧ (add_or_lookup_contacts_by_mailbox_list env db mbs origin ids cs).1.config
          = db.config := by
  intro mbs
  induction mbs with
  | nil => intro db ids cs; exact ⟨rfl, rfl⟩
  | cons mb rest ih =>
    intro db ids cs
    unfold add_or_lookup_contacts_by_mailbox_list at *
    rw [List.foldl_cons]
    obtain ⟨hstep, hstepc⟩ :=
      add_or_lookup_contact_by_addr_check env db mb.display_name mb.addr_spec
        origin ids
    obtain ⟨ih1, ih2⟩ := ih
      (add_or_lookup_contact_by_addr env db mb.display_name mb.addr_spec origin ids).1
      (add_or_lookup_contact_by_addr env db mb.display_name mb.addr_spec origin ids).2.1
      (add_or_lookup_contact_by_addr env db mb.display_name mb.addr_spec origin ids).2.2
    constructor
    · rw [ih1]
      cases rest with
      | nil =>
        simp only [List.getLast?_singleton]
        exact hstep
      | cons b l =>
        rw [List.getLast?_cons_cons]
        cases hl : (b :: l).getLast? with
        | none => simp [List.getLast?_eq_none_iff] at hl
        | some x =>
          exact getConfig_congr hstepc "configured_addr".toList [] ▸ rfl
    · rw [ih2, hstepc]

/-- The amended flip condition of C6, named after the spec's intent: the
LAST mailbox of the first From: field carries the configured self
address. -/
def lastFromMailboxIsSelf (db : Db) (fields : List ImfField) : Prop :=
  ∃ mbs mb, findFirstFrom fields = some mbs ∧ mbs.getLast? = some mb ∧
    strcaseEq (db.getConfig "configured_addr".toList []) mb.addr_spec = true

/-- C6 (amended): `receive_imf` first classifies a message as incoming
exactly when a `Return-Path` header is present (as the dedicated field
type or as an optional field named "Return-Path"); the From: safety net
then flips the classification to outgoing iff the LAST mailbox of the
first From: field resolves to the configured self address - not, as the
original claim said, if ANY From: mailbox does (`check_self` is
overwritten by every mailbox of the list). -/
theorem incoming_classification (env : Env) (db : Db) (fields : List ImfField) :
    (resolve_from env db (scanReturnPath fields) fields).1 = true ↔
      (scanReturnPath fields = true ∧ ¬ lastFromMailboxIsSelf db fields) := by
  unfold resolve_from
  cases hrp : scanReturnPath fields with
  | false =>
    simp only [Bool.false_eq_true, if_false, ite_false]
    constructor
    · intro h; cases h
    · rintro ⟨h, -⟩; cases h
  | true =>
    rw [if_pos rfl]
    cases hff : findFirstFrom fields with
    | none =>
      constructor
      · intro _
        refine ⟨rfl, ?_⟩
        rintro ⟨mbs, mb, hc, -, -⟩
        rw [hff] at hc
        cases hc
      · intro _
        rfl
    | some mbs =>
      dsimp only
      obtain ⟨hcs, -⟩ := mailbox_list_check_self env
        MR_ORIGIN_INCOMING_UNKNOWN_FROM mbs db [] false
      rcases hw : add_or_lookup_contacts_by_mailbox_list env db mbs
          MR_ORIGIN_INCOMING_UNKNOWN_FROM [] false with ⟨db2, fl, cs⟩
      rw [hw] at hcs
      dsimp only at hcs
      cases hlast : mbs.getLast? with
      | none =>
        simp only [hlast] at hcs
        subst hcs
        dsimp only
        constructor
        · intro _
          refine ⟨rfl, ?_⟩
          rintro ⟨mbs2, mb, hc, hl, -⟩
          rw [hff] at hc
          injection hc with hc
          subst hc
          rw [hlast] at hl
          cases hl
        · intro _
          cases fl with
          | nil => rfl
          | cons a l => rfl
      | some mb =>
        simp only [hlast] at hcs
        cases hsc : strcaseEq (db.getConfig "configured_addr".toList [])
            mb.addr_spec with
        | false =>
          rw [hsc] at hcs
          subst hcs
          dsimp only
          constructor
          · intro _
            refine ⟨rfl, ?_⟩
            rintro ⟨mbs2, mb2, hc, hl, hs⟩
            rw [hff] at hc
            injection hc with hc
            subst hc
            rw [hlast] at hl
            injection hl with hl
            subst hl
            rw [hsc] at hs
            cases hs
          · intro _
            cases fl with
            | nil => rfl
            | cons a l => rfl
        | true =>
          rw [hsc] at hcs
          subst hcs
          dsimp only
          constructor
          · intro h
            cases h
          · rintro ⟨-, hns⟩
            exact absurd ⟨mbs, mb, hff, hlast, hsc⟩ hns

/-- Witness for C6 (amended): with the self mailbox LAST in From:, the
classification is flipped to outgoing. -/
theorem incoming_classification_witness :
    (resolve_from ⟨id, 0⟩
        ⟨[], [], [], [], [], [("configured_addr".toList, "me@x.org".toList)],
          20, 11, 100⟩
        (scanReturnPath [ImfField.returnPath,
          ImfField.fromF [⟨none, "o@y.org".toList⟩, ⟨none, "me@x.org".toList⟩]])
        [ImfField.returnPath,
          ImfField.fromF [⟨none, "o@y.org".toList⟩, ⟨none, "me@x.org".toList⟩]]).1
      = true ↔
    (scanReturnPath [ImfField.returnPath,
        ImfField.fromF [⟨none, "o@y.org".toList⟩, ⟨none, "me@x.org".toList⟩]] = true
     ∧ ¬ lastFromMailboxIsSelf
        ⟨[], [], [], [], [], [("configured_addr".toList, "me@x.org".toList)],
          20, 11, 100⟩
        [ImfField.returnPath,
          ImfField.fromF [⟨none, "o@y.org".toList⟩, ⟨none, "me@x.org".toList⟩]]) :=
  incoming_classification ⟨id, 0⟩
    ⟨[], [], [], [], [], [("configured_addr".toList, "me@x.org".toList)],
      20, 11, 100⟩
    [ImfField.returnPath,
      ImfField.fromF [⟨none, "o@y.org".toList⟩, ⟨none, "me@x.org".toList⟩]]

/-- C6 counterexample: Return-Path present and the FIRST From: mailbox is
the self address (another mailbox follows), yet the message stays
classified incoming - refuting the claim that the classification flips
whenever ANY From: mailbox resolves to the self address. -/
theorem incoming_not_flipped_for_non_last_self :
    (resolve_from ⟨id, 0⟩
        ⟨[], [], [], [], [], [("configured_addr".toList, "me@x.org".toList)],
          20, 11, 100⟩
        (scanReturnPath [ImfField.returnPath,
          ImfField.fromF [⟨none, "me@x.org".toList⟩, ⟨none, "o@y.org".toList⟩]])
        [ImfField.returnPath,
          ImfField.fromF [⟨none, "me@x.org".toList⟩, ⟨none, "o@y.org".toList⟩]]).1
      = true
    ∧ scanReturnPath [ImfField.returnPath,
        ImfField.fromF [⟨none, "me@x.org".toList⟩, ⟨none, "o@y.org".toList⟩]]
      = true
    ∧ strcaseEq
        (Db.getConfig
          ⟨[], [], [], [], [], [("configured_addr".toList, "me@x.org".toList)],
            20, 11, 100⟩ "configured_addr".toList [])
        "me@x.org".toList = true := by
  refine ⟨by decide, by decide, by decide⟩

/-! ## C9: events versus the transaction -/

theorem lookup_group_commands_events_chatModified (db : Db) (mp : MimeParser)
    (h : GroupHints) (chat_id : Nat) (self_addr : List Char) (created : Bool)
    (from_id : Nat) (to_list : List Nat) :
    ∀ e ∈ (lookup_group_commands db mp h chat_id self_addr created from_id
        to_list).2.2, ∃ c, e = Event.chatModified c := by
  unfold lookup_group_commands
  dsimp only
  split <;> split <;> (try split) <;>
    (intro e he
     simp only [List.mem_append, List.mem_singleton, List.not_mem_nil,
       false_or, or_false] at he
     try
       first
         | exact ⟨chat_id, he⟩
         | exact ⟨chat_id, rfl⟩
         | exact he.elim
         | exact he.elim (fun h1 => ⟨chat_id, h1⟩) (fun h1 => ⟨chat_id, h1⟩))

theorem lookup_group_events_chatModified (env : Env) (db : Db)
    (mp : MimeParser) (create_as_needed : Bool) (from_id : Nat)
    (to_list : List Nat) :
    ∀ e ∈ (lookup_group_by_grpid env db mp create_as_needed from_id
        to_list).2.2, ∃ c, e = Event.chatModified c := by
  unfold lookup_group_by_grpid lookup_group_with_hints
  cases hg : chosenGrpid (collectGroupHints env.decode mp.fields) with
  | none => intro e he; simp at he
  | some g =>
    dsimp only
    split_ifs <;>
      first
        | exact lookup_group_commands_events_chatModified _ _ _ _ _ _ _ _
        | (intro e he; exact absurd he (List.not_mem_nil e))

theorem resolve_chat_sync_events (env : Env) (mp : MimeParser) (db3 : Db)
    (incoming known : Bool) (from_id0 : Nat) (to_list : List Nat)
    (flags : Nat) :
    ∀ e ∈ (resolve_chat env mp db3 incoming known from_id0 to_list
        flags).2.2.2.2.2.2, ∃ c, e = Event.chatModified c := by
  unfold resolve_chat
  cases incoming with
  | true =>
    rw [if_pos rfl]
    dsimp only
    rcases hlg : lookup_group_by_grpid env db3 mp
        (known && mp.is_send_by_messenger) from_id0 to_list with ⟨g, db4, sync⟩
    have hev := lookup_group_events_chatModified env db3 mp
      (known && mp.is_send_by_messenger) from_id0 to_list
    rw [hlg] at hev
    split_ifs <;> first | exact hev | (intro e he; exact hev e he)
  | false =>
    rw [if_neg (by simp)]
    cases to_list with
    | nil => intro e he; simp at he
    | cons to0 rest =>
      dsimp only
      rcases hlg : lookup_group_by_grpid env db3 mp true MR_CONTACT_ID_SELF
          (to0 :: rest) with ⟨g, db4, sync⟩
      have hev := lookup_group_events_chatModified env db3 mp true
        MR_CONTACT_ID_SELF (to0 :: rest)
      rw [hlg] at hev
      split_ifs <;> first | exact hev | (intro e he; exact hev e he)

/-- The events fired while the transaction is open are exactly the
resolver's `sync` component: the dedup, insertion, ghost and report phases
only queue events for the cleanup after commit/rollback. -/
theorem receive_imf_after_resolve_syncEvents (env : Env) (db0 : Db)
    (mp : MimeParser) (folder : List Char) (uid flags : Nat)
    (rest_mid : Option (List Char)) (rest_ts : Int) (to_list : List Nat)
    (incoming : Bool) (fb : Bool)
    (resolved : Nat × Nat × Nat × Nat × Bool × Db × List Event) :
    (receive_imf_after_resolve env db0 mp folder uid flags rest_mid rest_ts
        to_list incoming fb resolved).syncEvents
      = resolved.2.2.2.2.2.2 := by
  rcases resolved with ⟨st, from_id, to_id, chat_id, is_group, db4, sync⟩
  unfold receive_imf_after_resolve
  dsimp only
  repeat' (first | rfl | split)

/-- C9.  Amended: during `receive_imf`, the only events delivered to the
callback while the transaction begun by `receive_imf` is still open are
the `CHAT_MODIFIED` events fired synchronously by the group resolver
(`lookup_group_by_grpid__`, lines 234 and 267); every `INCOMING_MSG`,
`MSGS_CHANGED` and `MSG_READ` event really is queued and emitted only in
cleanup, after commit (or rollback) and outside the lock. -/
theorem receive_imf_sync_events_chat_modified (env : Env) (db0 : Db)
    (mimeOpt : Option MimeParser) (folder : List Char) (uid flags : Nat) :
    ∀ e ∈ (receive_imf env db0 mimeOpt folder uid flags).syncEvents,
      ∃ c, e = Event.chatModified c := by
  match mimeOpt with
  | none => intro e he; exact absurd he (List.not_mem_nil e)
  | some mp =>
    unfold receive_imf
    dsimp only
    rcases hrf : resolve_from env db0 (scanReturnPath mp.fields) mp.fields
      with ⟨inc, fid, fb, kn, db1⟩
    rcases hft : process_first_to env db1 (!inc) kn mp.fields with ⟨db2, tl0⟩
    split
    · rw [receive_imf_after_resolve_syncEvents]
      exact resolve_chat_sync_events env mp _ inc kn fid _ flags
    · rcases hpr : process_reports db2 mp with ⟨db8, rr⟩
      intro e he
      exact absurd he (List.not_mem_nil e)

/-! Concrete fixture: an outgoing messenger message into the existing
group chat 10 carrying a `Chat-Group-Member-Added` header, so the group
resolver recreates the member list and fires `CHAT_MODIFIED` through
`m_cb` inside the open transaction. -/

def c9env : Env := ⟨id, 1000000⟩

def c9db : Db := {
  contacts := []
  chats := [⟨10, MR_CHAT_GROUP, "Team".toList, some "abcdefghij1".toList⟩]
  chats_contacts := [(10, 1)]
  msgs := []
  leftgrps := []
  config := [("configured_addr".toList, "me@example.org".toList)]
  nextContactId := 20
  nextChatId := 11
  nextMsgId := 100 }

def c9mp : MimeParser := {
  fields := [.optionalField "Chat-Group-ID".toList "abcdefghij1".toList,
             .optionalField "Chat-Group-Member-Added".toList "b@x.org".toList,
             .messageId "mid1@x.org".toList,
             .toF [.mailboxAd ⟨none, "b@x.org".toList⟩]]
  is_send_by_messenger := true
  parts := [⟨MR_MSG_TEXT, "hello".toList, "hello".toList, [], 5⟩]
  reports := []
  subject := some "Sub".toList }

/-- C9 counterexample: on this concrete message `receive_imf` delivers
`CHAT_MODIFIED(10)` to the callback synchronously, while its transaction
is still open (the spec says every event is delivered only after commit);
the queued volley emitted after commit is the per-row `MSGS_CHANGED`. -/
theorem receive_imf_chat_modified_inside_transaction :
    (receive_imf c9env c9db (some c9mp) "INBOX".toList 5 0).syncEvents
      = [Event.chatModified 10]
    ∧ (receive_imf c9env c9db (some c9mp) "INBOX".toList 5 0).queuedEvents
      = [Event.msgsChanged 10 100] := by
  constructor
  · decide
  · decide

/-- Witness for C9: the amended theorem applies to the fixture's
synchronous `CHAT_MODIFIED(10)`. -/
theorem receive_imf_sync_events_chat_modified_witness :
    Event.chatModified 10
        ∈ (receive_imf c9env c9db (some c9mp) "INBOX".toList 5 0).syncEvents
    ∧ ∃ c, Event.chatModified 10 = Event.chatModified c :=
  ⟨by decide,
   receive_imf_sync_events_chat_modified c9env c9db (some c9mp)
     "INBOX".toList 5 0 (Event.chatModified 10) (by decide)⟩

/-! ## C8: re-ingesting the same message (dedup via rfc724_mid) -/

/-- The Message-ID the "collect the rest information" loop of lines
643-647 ends up with: a plain assignment per `MAILIMF_FIELD_MESSAGE_ID`
field, so the LAST such field of the header wins. -/
def header_message_id (fields : List ImfField) : Option (List Char) :=
  fields.foldl (fun acc f =>
    match f with
    | ImfField.messageId m => some m
    | _ => acc) none

theorem collect_rest_step_mid (env : Env) (out : Bool) (acc : RestInfo)
    (f : ImfField) :
    (collect_rest_step env out acc f).rfc724_mid
      = match f with
        | ImfField.messageId m => some m
        | _ => acc.rfc724_mid := by
  cases f <;> first | rfl | (dsimp only [collect_rest_step]; split <;> rfl)

theorem foldl_collect_rest_mid (env : Env) (out : Bool) :
    ∀ (fields : List ImfField) (acc : RestInfo),
      (fields.foldl (collect_rest_step env out) acc).rfc724_mid
        = fields.foldl (fun a f =>
            match f with
            | ImfField.messageId m => some m
            | _ => a) acc.rfc724_mid := by
  intro fields
  induction fields with
  | nil => intro acc; rfl
  | cons f rest ih =>
    intro acc
    rw [List.foldl_cons, List.foldl_cons, ih, collect_rest_step_mid]

theorem collect_rest_rfc724_mid (env : Env) (out : Bool) (db : Db)
    (tl : List Nat) (fields : List ImfField) :
    (collect_rest env out db tl fields).rfc724_mid
      = header_message_id fields := by
  unfold collect_rest header_message_id
  rw [foldl_collect_rest_mid]

/-! Before the dedup check, no phase of `receive_imf` touches the `msgs`
table: the contact walks, the group resolver and the 1:1-chat lookups
write only `contacts`, `chats`, `chats_contacts` and `leftgrps`. -/

theorem add_or_lookup_contact_msgs (db : Db) (n : Option (List Char))
    (a : List Char) (o : Nat) :
    (mrmailbox_add_or_lookup_contact db n a o).1.msgs = db.msgs := by
  unfold mrmailbox_add_or_lookup_contact
  split <;> rfl

theorem add_or_lookup_contact_by_addr_msgs (env : Env) (db : Db)
    (dn : Option (List Char)) (a : List Char) (o : Nat) (ids : List Nat) :
    (add_or_lookup_contact_by_addr env db dn a o ids).1.msgs = db.msgs := by
  unfold add_or_lookup_contact_by_addr
  dsimp only
  split
  · rfl
  · split <;> exact add_or_lookup_contact_msgs db (dn.map env.decode) a o

theorem mailbox_list_msgs (env : Env) (o : Nat) :
    ∀ (mbs : List Mailbox) (db : Db) (ids : List Nat) (cs : Bool),
      (add_or_lookup_contacts_by_mailbox_list env db mbs o ids cs).1.msgs
        = db.msgs := by
  intro mbs
  induction mbs with
  | nil => intro db ids cs; rfl
  | cons mb rest ih =>
    intro db ids cs
    have hstep :
        add_or_lookup_contacts_by_mailbox_list env db (mb :: rest) o ids cs
          = add_or_lookup_contacts_by_mailbox_list env
              (add_or_lookup_contact_by_addr env db mb.display_name
                mb.addr_spec o ids).1 rest o
              (add_or_lookup_contact_by_addr env db mb.display_name
                mb.addr_spec o ids).2.1
              (add_or_lookup_contact_by_addr env db mb.display_name
                mb.addr_spec o ids).2.2 := rfl
    rw [hstep, ih, add_or_lookup_contact_by_addr_msgs]

theorem address_list_msgs (env : Env) (o : Nat) :
    ∀ (addrs : List Address) (db : Db) (ids : List Nat) (cs : Bool),
      (add_or_lookup_contacts_by_address_list env db addrs o ids cs).1.msgs
        = db.msgs := by
  intro addrs
  induction addrs with
  | nil => intro db ids cs; rfl
  | cons ad rest ih =>
    intro db ids cs
    cases ad with
    | mailboxAd mb =>
      have hstep :
          add_or_lookup_contacts_by_address_list env db
              (Address.mailboxAd mb :: rest) o ids cs
            = add_or_lookup_contacts_by_address_list env
                (add_or_lookup_contact_by_addr env db mb.display_name
                  mb.addr_spec o ids).1 rest o
                (add_or_lookup_contact_by_addr env db mb.display_name
                  mb.addr_spec o ids).2.1
                (add_or_lookup_contact_by_addr env db mb.display_name
                  mb.addr_spec o ids).2.2 := rfl
      rw [hstep, ih, add_or_lookup_contact_by_addr_msgs]
    | groupAd mbs =>
      have hstep :
          add_or_lookup_contacts_by_address_list env db
              (Address.groupAd mbs :: rest) o ids cs
            = add_or_lookup_contacts_by_address_list env
                (add_or_lookup_contacts_by_mailbox_list env db mbs o ids cs).1
                rest o
                (add_or_lookup_contacts_by_mailbox_list env db mbs o ids
                  cs).2.1
                (add_or_lookup_contacts_by_mailbox_list env db mbs o ids
                  cs).2.2 := rfl
      rw [hstep, ih, mailbox_list_msgs]

theorem resolve_from_msgs (env : Env) (db : Db) (inc : Bool)
    (fields : List ImfField) :
    (resolve_from env db inc fields).2.2.2.2.msgs = db.msgs := by
  unfold resolve_from
  split
  · split
    · rfl
    · dsimp only
      split
      · apply mailbox_list_msgs
      · split
        · apply mailbox_list_msgs
        · apply mailbox_list_msgs
  · rfl

theorem process_first_to_msgs (env : Env) (db : Db) (outg kn : Bool)
    (fields : List ImfField) :
    (process_first_to env db outg kn fields).1.msgs = db.msgs := by
  unfold process_first_to
  split
  · split
    · rfl
    · dsimp only
      apply address_list_msgs
  · rfl

theorem collect_rest_step_msgs (env : Env) (out : Bool) (acc : RestInfo)
    (f : ImfField) :
    (collect_rest_step env out acc f).db.msgs = acc.db.msgs := by
  cases f <;> try rfl
  case ccF addrs =>
    show (add_or_lookup_contacts_by_address_list env acc.db addrs
        (if out then MR_ORIGIN_OUTGOING_CC else MR_ORIGIN_INCOMING_CC)
        acc.to_list false).1.msgs = acc.db.msgs
    apply address_list_msgs
  case bccF addrs =>
    dsimp only [collect_rest_step]
    split
    · show (add_or_lookup_contacts_by_address_list env acc.db addrs
          MR_ORIGIN_OUTGOING_BCC acc.to_list false).1.msgs = acc.db.msgs
      apply address_list_msgs
    · rfl

theorem foldl_collect_rest_msgs (env : Env) (out : Bool) :
    ∀ (fields : List ImfField) (acc : RestInfo),
      (fields.foldl (collect_rest_step env out) acc).db.msgs
        = acc.db.msgs := by
  intro fields
  induction fields with
  | nil => intro acc; rfl
  | cons f rest ih =>
    intro acc
    rw [List.foldl_cons, ih, collect_rest_step_msgs]

theorem collect_rest_msgs (env : Env) (out : Bool) (db : Db) (tl : List Nat)
    (fields : List ImfField) :
    (collect_rest env out db tl fields).db.msgs = db.msgs := by
  unfold collect_rest
  rw [foldl_collect_rest_msgs]

theorem add_contact_to_chat_msgs (db : Db) (c i : Nat) :
    (mrmailbox_add_contact_to_chat db c i).msgs = db.msgs := by
  unfold mrmailbox_add_contact_to_chat
  split <;> rfl

theorem add_to_id_step_msgs (c : Nat) (sa : List Char)
    (sk : Option (List Char)) (db : Db) (t : Nat) :
    (add_to_id_step c sa sk db t).msgs = db.msgs := by
  unfold add_to_id_step
  split_ifs
  · exact add_contact_to_chat_msgs db c t
  · rfl

theorem foldl_add_to_id_step_msgs (c : Nat) (sa : List Char)
    (sk : Option (List Char)) :
    ∀ (tl : List Nat) (db : Db),
      (tl.foldl (add_to_id_step c sa sk) db).msgs = db.msgs := by
  intro tl
  induction tl with
  | nil => intro db; rfl
  | cons t ts ih =>
    intro db
    rw [List.foldl_cons, ih, add_to_id_step_msgs]

theorem recreate_self_stage_msgs (c : Nat) (sa : List Char)
    (sk : Option (List Char)) (db : Db) :
    (recreate_self_stage c sa sk db).msgs = db.msgs := by
  unfold recreate_self_stage
  split_ifs
  · exact add_contact_to_chat_msgs db c MR_CONTACT_ID_SELF
  · rfl

theorem recreate_from_stage_msgs (c : Nat) (sa : List Char)
    (sk : Option (List Char)) (fi : Nat) (db : Db) :
    (recreate_from_stage c sa sk fi db).msgs = db.msgs := by
  unfold recreate_from_stage
  split_ifs
  · exact add_contact_to_chat_msgs db c fi
  · rfl
  · rfl

theorem recreate_member_list_db_msgs (db : Db) (c : Nat) (sa : List Char)
    (sk : Option (List Char)) (fi : Nat) (tl : List Nat) :
    (recreate_member_list_db db c sa sk fi tl).msgs = db.msgs := by
  unfold recreate_member_list_db
  rw [foldl_add_to_id_step_msgs, recreate_from_stage_msgs,
    recreate_self_stage_msgs]
  rfl

theorem sql_update_chat_name_msgs (db : Db) (c : Nat) (nm : List Char) :
    (sql_update_chat_name db c nm).msgs = db.msgs := rfl

theorem sql_insert_chat_msgs (db : Db) (t : Nat) (nm : List Char)
    (g : Option (List Char)) :
    (sql_insert_chat db t nm g).1.msgs = db.msgs := rfl

theorem scaleup_contact_origin_msgs (db : Db) (c o : Nat) :
    (mrmailbox_scaleup_contact_origin db c o).msgs = db.msgs := rfl

theorem lookup_group_commands_msgs (db : Db) (mp : MimeParser)
    (h : GroupHints) (chat_id : Nat) (sa : List Char) (cr : Bool)
    (fi : Nat) (tl : List Nat) :
    (lookup_group_commands db mp h chat_id sa cr fi tl).2.1.msgs
      = db.msgs := by
  unfold lookup_group_commands
  dsimp only
  split <;> split <;> (try split) <;>
    simp [recreate_member_list_db_msgs, sql_update_chat_name_msgs]

theorem lookup_group_by_grpid_msgs (env : Env) (db : Db) (mp : MimeParser)
    (can : Bool) (fi : Nat) (tl : List Nat) :
    (lookup_group_by_grpid env db mp can fi tl).2.1.msgs = db.msgs := by
  unfold lookup_group_by_grpid lookup_group_with_hints
  cases hg : chosenGrpid (collectGroupHints env.decode mp.fields) with
  | none => rfl
  | some g =>
    dsimp only
    split_ifs <;>
      first
        | rfl
        | (rw [lookup_group_commands_msgs]; try rfl)

theorem create_or_lookup_nchat_msgs (db : Db) (cid : Nat) :
    (mrmailbox_create_or_lookup_nchat_by_contact_id db cid).1.msgs
      = db.msgs := by
  unfold mrmailbox_create_or_lookup_nchat_by_contact_id
  dsimp only
  split
  · rfl
  · rw [add_contact_to_chat_msgs]
    rfl

theorem resolve_chat_msgs (env : Env) (mp : MimeParser) (db3 : Db)
    (incoming known : Bool) (from_id0 : Nat) (to_list : List Nat)
    (flags : Nat) :
    (resolve_chat env mp db3 incoming known from_id0 to_list
        flags).2.2.2.2.2.1.msgs = db3.msgs := by
  unfold resolve_chat
  cases incoming with
  | true =>
    rw [if_pos rfl]
    dsimp only
    rcases hlg : lookup_group_by_grpid env db3 mp
        (known && mp.is_send_by_messenger) from_id0 to_list
      with ⟨g, db4, sync⟩
    have hm : db4.msgs = db3.msgs := by
      have h0 := lookup_group_by_grpid_msgs env db3 mp
        (known && mp.is_send_by_messenger) from_id0 to_list
      rw [hlg] at h0
      exact h0
    split_ifs <;>
      first
        | exact hm
        | (rw [create_or_lookup_nchat_msgs]; exact hm)
        | (rw [create_or_lookup_nchat_msgs, scaleup_contact_origin_msgs];
           exact hm)
  | false =>
    cases to_list with
    | nil => rw [if_neg (by simp)]
    | cons to0 rest =>
      rw [if_neg (by simp)]
      dsimp only
      rcases hlg : lookup_group_by_grpid env db3 mp true MR_CONTACT_ID_SELF
          (to0 :: rest) with ⟨g, db4, sync⟩
      have hm : db4.msgs = db3.msgs := by
        have h0 := lookup_group_by_grpid_msgs env db3 mp true
          MR_CONTACT_ID_SELF (to0 :: rest)
        rw [hlg] at h0
        exact h0
      split_ifs <;>
        first
          | exact hm
          | (rw [create_or_lookup_nchat_msgs]; exact hm)

/-! Tracking `mrmailbox_rfc724_mid_exists__` through the insertion and
report phases. -/

theorem rfc724_mid_exists_congr {db db2 : Db} (mid : List Char)
    (h : db.msgs = db2.msgs) :
    mrmailbox_rfc724_mid_exists db mid
      = mrmailbox_rfc724_mid_exists db2 mid := by
  unfold mrmailbox_rfc724_mid_exists
  rw [h]

theorem find_append_first {α : Type} (p : α → Bool) (l1 l2 : List α) :
    (l1 ++ l2).find? p
      = match l1.find? p with
        | some x => some x
        | none => l2.find? p := by
  induction l1 with
  | nil => simp
  | cons a l ih =>
    by_cases hp : p a
    · rw [List.cons_append, List.find?_cons_of_pos _ hp,
        List.find?_cons_of_pos _ hp]
    · rw [List.cons_append, List.find?_cons_of_neg _ hp,
        List.find?_cons_of_neg _ hp, ih]

theorem find_update_server_uid (mid f : List Char) (u : Nat) :
    ∀ (l : List Msg) (m0 : Msg),
      l.find? (fun m => m.rfc724_mid == mid) = some m0 →
      ((l.map (fun m =>
          if m.rfc724_mid == mid then
            { m with server_folder := f, server_uid := u }
          else m)).find? (fun m => m.rfc724_mid == mid)).map
          (fun m => (m.server_folder, m.server_uid))
        = some (f, u) := by
  intro l
  induction l with
  | nil => intro m0 h; simp [List.find?] at h
  | cons a l ih =>
    intro m0 h
    by_cases hp : (a.rfc724_mid == mid) = true
    · have ha : (if a.rfc724_mid == mid then
          { a with server_folder := f, server_uid := u }
        else a) = { a with server_folder := f, server_uid := u } :=
        if_pos hp
      rw [List.map_cons, ha]
      simp [List.find?_cons, hp]
    · have hp2 : (a.rfc724_mid == mid) = false := by simpa using hp
      have ha : (if a.rfc724_mid == mid then
          { a with server_folder := f, server_uid := u }
        else a) = a := if_neg hp
      rw [List.map_cons, ha]
      simp only [List.find?_cons, hp2] at h ⊢
      exact ih m0 h

theorem rfc724_exists_update (db : Db) (mid f : List Char) (u : Nat)
    (q : List Char × Nat)
    (h : mrmailbox_rfc724_mid_exists db mid = some q) :
    mrmailbox_rfc724_mid_exists
        (mrmailbox_update_server_uid db mid f u) mid = some (f, u) := by
  unfold mrmailbox_rfc724_mid_exists at h ⊢
  unfold mrmailbox_update_server_uid
  rcases Option.map_eq_some'.mp h with ⟨m0, hm0, hq⟩
  exact find_update_server_uid mid f u db.msgs m0 hm0

theorem insert_part_rows_shape (mp : MimeParser) (mid f : List Char)
    (u c fi ti : Nat) (ts : Int) (st : Nat) :
    ∀ (parts : List MimePart) (acc : Db × Nat × List (Nat × Nat)),
      ∃ extra,
        ((parts.foldl (insert_part_step mp mid f u c fi ti ts st)
            acc).1).msgs
          = acc.1.msgs ++ extra
        ∧ (∀ m ∈ extra, m.rfc724_mid = mid ∧ m.server_folder = f
            ∧ m.server_uid = u)
        ∧ (parts ≠ [] → extra ≠ []) := by
  intro parts
  induction parts with
  | nil =>
    intro acc
    exact ⟨[], by simp, by simp, fun h => absurd rfl h⟩
  | cons part rest ih =>
    intro acc
    obtain ⟨extra, hmsgs, hall, _⟩ :=
      ih (insert_part_step mp mid f u c fi ti ts st acc part)
    have hstep : ∃ row,
        (insert_part_step mp mid f u c fi ti ts st acc part).1.msgs
          = acc.1.msgs ++ [row]
        ∧ row.rfc724_mid = mid ∧ row.server_folder = f
        ∧ row.server_uid = u :=
      ⟨_, rfl, rfl, rfl, rfl⟩
    obtain ⟨row, hrow, hr1, hr2, hr3⟩ := hstep
    refine ⟨row :: extra, ?_, ?_, ?_⟩
    · rw [List.foldl_cons, hmsgs, hrow, List.append_assoc]
      rfl
    · intro m hm
      rcases List.mem_cons.mp hm with hm | hm
      · subst hm; exact ⟨hr1, hr2, hr3⟩
      · exact hall m hm
    · intro _
      exact List.cons_ne_nil row extra

theorem rfc724_exists_insert (db : Db) (mp : MimeParser) (mid f : List Char)
    (u c fi ti : Nat) (ts : Int) (st : Nat)
    (h0 : mrmailbox_rfc724_mid_exists db mid = none)
    (hp : mp.parts ≠ []) :
    mrmailbox_rfc724_mid_exists
        (insert_part_rows db mp mid f u c fi ti ts st).1 mid
      = some (f, u) := by
  obtain ⟨extra, hmsgs, hall, hne⟩ :=
    insert_part_rows_shape mp mid f u c fi ti ts st mp.parts (db, 0, [])
  dsimp only at hmsgs
  have hf0 : db.msgs.find? (fun m => m.rfc724_mid == mid) = none := by
    unfold mrmailbox_rfc724_mid_exists at h0
    exact Option.map_eq_none'.mp h0
  unfold mrmailbox_rfc724_mid_exists insert_part_rows
  rw [hmsgs, find_append_first, hf0]
  cases extra with
  | nil => exact absurd rfl (hne hp)
  | cons e0 es =>
    obtain ⟨h1, h2, h3⟩ := hall e0 (List.mem_cons_self e0 es)
    have hp0 : (e0.rfc724_mid == mid) = true := by simp [h1]
    simp [List.find?_cons, hp0, h2, h3]

theorem insert_ghost_rows_shape (mp : MimeParser) (gm gp gt : List Char)
    (fi : Nat) (ts : Int) (st : Nat) :
    ∀ (l : List Nat) (acc : Db × List (Nat × Nat)),
      ∃ extra,
        ((l.foldl (insert_ghost_step mp gm gp gt fi ts st) acc).1).msgs
          = acc.1.msgs ++ extra := by
  intro l
  induction l with
  | nil => intro acc; exact ⟨[], by simp⟩
  | cons t rest ih =>
    intro acc
    obtain ⟨extra, hmsgs⟩ :=
      ih (insert_ghost_step mp gm gp gt fi ts st acc t)
    have hstep : ∃ row,
        (insert_ghost_step mp gm gp gt fi ts st acc t).1.msgs
          = acc.1.msgs ++ [row] := ⟨_, rfl⟩
    obtain ⟨row, hrow⟩ := hstep
    refine ⟨row :: extra, ?_⟩
    rw [List.foldl_cons, hmsgs, hrow, List.append_assoc]
    rfl

theorem rfc724_exists_ghost (db : Db) (mp : MimeParser) (fid : Nat)
    (tl : List Nat) (fi : Nat) (ts : Int) (st : Nat) (mid : List Char)
    (q : List Char × Nat)
    (h : mrmailbox_rfc724_mid_exists db mid = some q) :
    mrmailbox_rfc724_mid_exists
        (insert_ghost_rows db mp fid tl fi ts st).1 mid = some q := by
  unfold mrmailbox_rfc724_mid_exists at h ⊢
  obtain ⟨m0, hm0, hq⟩ := Option.map_eq_some'.mp h
  unfold insert_ghost_rows
  dsimp only
  obtain ⟨extra, hmsgs⟩ :=
    insert_ghost_rows_shape mp (ghost_rfc724_mid fid)
      ('G' :: '=' :: natDigits fid)
      (match mp.parts with
       | [] => []
       | part :: _ =>
         mrmsg_get_summarytext_by_raw part.msg APPROX_SUBJECT_CHARS)
      fi ts st (tl.drop 1) (db, [])
  dsimp only at hmsgs
  rw [hmsgs, find_append_first, hm0]
  simp [hq]

theorem find_map_preserve (mid : List Char) :
    ∀ (l : List Msg) (g : Msg → Msg),
      (∀ x, (g x).rfc724_mid = x.rfc724_mid
        ∧ (g x).server_folder = x.server_folder
        ∧ (g x).server_uid = x.server_uid) →
      ((l.map g).find? (fun m => m.rfc724_mid == mid)).map
          (fun m => (m.server_folder, m.server_uid))
        = (l.find? (fun m => m.rfc724_mid == mid)).map
          (fun m => (m.server_folder, m.server_uid)) := by
  intro l
  induction l with
  | nil => intro g hg; rfl
  | cons a l ih =>
    intro g hg
    rw [List.map_cons]
    by_cases hp : (a.rfc724_mid == mid) = true
    · have hga : ((g a).rfc724_mid == mid) = true := by
        rw [(hg a).1]; exact hp
      simp [List.find?_cons, hp, hga, (hg a).2.1, (hg a).2.2]
    · have hp2 : (a.rfc724_mid == mid) = false := by simpa using hp
      have hga : ((g a).rfc724_mid == mid) = false := by
        rw [(hg a).1]; exact hp2
      simp only [List.find?_cons, hp2, hga]
      exact ih g hg

theorem mdn_from_ext_exists (db : Db) (m mid : List Char) :
    mrmailbox_rfc724_mid_exists (mrmailbox_mdn_from_ext db m).1 mid
      = mrmailbox_rfc724_mid_exists db mid := by
  unfold mrmailbox_mdn_from_ext
  cases hf : db.msgs.find? (fun m2 => m2.rfc724_mid == m) with
  | none => rfl
  | some m0 =>
    dsimp only
    split_ifs with hs
    · unfold mrmailbox_rfc724_mid_exists
      refine find_map_preserve mid db.msgs
        (fun m2 =>
          if m2.id == m0.id then { m2 with state := MR_OUT_READ } else m2)
        ?_
      intro x
      show (if x.id == m0.id then { x with state := MR_OUT_READ }
          else x).rfc724_mid = x.rfc724_mid
        ∧ (if x.id == m0.id then { x with state := MR_OUT_READ }
          else x).server_folder = x.server_folder
        ∧ (if x.id == m0.id then { x with state := MR_OUT_READ }
          else x).server_uid = x.server_uid
      split_ifs <;> exact ⟨rfl, rfl, rfl⟩
    · rfl

theorem foldl_reports_exists (men : Int) (mid : List Char) :
    ∀ (reps : List Report) (acc : Db × List (Nat × Nat)),
      mrmailbox_rfc724_mid_exists
          ((reps.foldl (fun (acc : Db × List (Nat × Nat)) rep =>
            let (db, rr) := acc
            if rep.is_disposition_notification && men ≠ 0
                && rep.second_is_message_dn then
              match rep.org_msgid with
              | some mid2 =>
                let (db, hit) := mrmailbox_mdn_from_ext db mid2
                match hit with
                | some p => (db, rr ++ [p])
                | none => (db, rr)
              | none => (db, rr)
            else (db, rr)) acc).1) mid
        = mrmailbox_rfc724_mid_exists acc.1 mid := by
  intro reps
  induction reps with
  | nil => intro acc; rfl
  | cons rep rest ih =>
    intro acc
    rw [List.foldl_cons, ih]
    dsimp only
    split_ifs with hc
    · cases ho : rep.org_msgid with
      | none => rfl
      | some m2 =>
        dsimp only
        cases hh : (mrmailbox_mdn_from_ext acc.1 m2).2 with
        | none => exact mdn_from_ext_exists acc.1 m2 mid
        | some p => exact mdn_from_ext_exists acc.1 m2 mid
    · rfl

theorem process_reports_exists (db : Db) (mp : MimeParser)
    (mid : List Char) :
    mrmailbox_rfc724_mid_exists (process_reports db mp).1 mid
      = mrmailbox_rfc724_mid_exists db mid := by
  unfold process_reports
  dsimp only
  split_ifs with hr
  · exact foldl_reports_exists
      (db.getConfigInt "mdns_enabled".toList MR_MDNS_DEFAULT_ENABLED) mid
      mp.reports (db, [])
  · rfl

/-- Lines 747-756: when the Message-ID is already present with the same
server folder and uid, the transaction is rolled back (the state returns
to `db0`) and no event is queued. -/
theorem receive_imf_after_resolve_dedup (env : Env) (db0 : Db)
    (mp : MimeParser) (folder : List Char) (uid flags : Nat)
    (mid : List Char) (rest_ts : Int) (to_list : List Nat)
    (incoming fb : Bool)
    (resolved : Nat × Nat × Nat × Nat × Bool × Db × List Event)
    (hk : mrmailbox_rfc724_mid_exists resolved.2.2.2.2.2.1 mid
      = some (folder, uid)) :
    receive_imf_after_resolve env db0 mp folder uid flags (some mid) rest_ts
        to_list incoming fb resolved
      = ⟨db0, resolved.2.2.2.2.2.2, []⟩ := by
  unfold receive_imf_after_resolve
  dsimp only
  rw [hk]
  dsimp only
  rw [if_neg (by simp)]

/-- After an insertion run of `receive_imf` (no dedup hit, at least one
part), the Message-ID is registered in the msgs table under the call's
server folder and uid; the insertion, ghost and report phases never
disturb the first matching row's folder/uid. -/
theorem receive_imf_after_resolve_registers (env : Env) (db0 : Db)
    (mp : MimeParser) (folder : List Char) (uid flags : Nat)
    (mid : List Char) (rest_ts : Int) (to_list : List Nat)
    (incoming fb : Bool)
    (resolved : Nat × Nat × Nat × Nat × Bool × Db × List Event)
    (hp : mp.parts ≠ [])
    (hmsgs : resolved.2.2.2.2.2.1.msgs = db0.msgs) :
    mrmailbox_rfc724_mid_exists
        (receive_imf_after_resolve env db0 mp folder uid flags (some mid)
          rest_ts to_list incoming fb resolved).db mid
      = some (folder, uid) := by
  rcases resolved with ⟨st, f2, t2, c2, g2, db4, sync⟩
  dsimp only at hmsgs
  unfold receive_imf_after_resolve
  dsimp only
  cases hx : mrmailbox_rfc724_mid_exists db4 mid with
  | some q =>
    rcases q with ⟨of, ou⟩
    have h0 : mrmailbox_rfc724_mid_exists db0 mid = some (of, ou) :=
      (rfc724_mid_exists_congr mid hmsgs).symm.trans hx
    dsimp only
    split_ifs with hd
    · exact rfc724_exists_update db0 mid folder uid (of, ou) h0
    · push_neg at hd
      rw [h0, hd.1, hd.2]
  | none =>
    dsimp only
    have h6 := rfc724_exists_insert db4 mp mid folder uid c2 f2 t2
      (correct_bad_timestamp env db4 c2 f2 rest_ts
        (!(flags &&& MR_IMAP_SEEN ≠ 0))) st hx hp
    rw [process_reports_exists]
    split_ifs with hg
    · exact rfc724_exists_ghost _ mp _ to_list f2 _ st mid (folder, uid) h6
    · exact h6

/-- The only thing the second ingestion of the same raw message can do to
the database before its dedup check is touch contact/chat rows: the
Message-ID it computes is the header's (unchanged), and the matching msgs
row still carries the call's folder and uid, so the duplicate path fires
and rolls back. -/
theorem receive_imf_dedup (env : Env) (dbX : Db) (mp : MimeParser)
    (folder : List Char) (uid flags : Nat) (mid : List Char)
    (h1 : header_message_id mp.fields = some mid)
    (hp : mp.parts ≠ [])
    (hk : mrmailbox_rfc724_mid_exists dbX mid = some (folder, uid)) :
    (receive_imf env dbX (some mp) folder uid flags).db = dbX
    ∧ (receive_imf env dbX (some mp) folder uid flags).queuedEvents
        = [] := by
  unfold receive_imf
  dsimp only
  rcases hrf : resolve_from env dbX (scanReturnPath mp.fields) mp.fields
    with ⟨inc, fid, fb, kn, db1⟩
  have hm1 : db1.msgs = dbX.msgs := by
    have h0 := resolve_from_msgs env dbX (scanReturnPath mp.fields) mp.fields
    rw [hrf] at h0
    exact h0
  rcases hft : process_first_to env db1 (!inc) kn mp.fields with ⟨db2, tl0⟩
  have hm2 : db2.msgs = db1.msgs := by
    have h0 := process_first_to_msgs env db1 (!inc) kn mp.fields
    rw [hft] at h0
    exact h0
  rw [if_pos (List.length_pos.mpr hp)]
  dsimp only
  have hmid : (collect_rest env (!inc) db2 tl0 mp.fields).rfc724_mid
      = some mid :=
    (collect_rest_rfc724_mid env (!inc) db2 tl0 mp.fields).trans h1
  rw [hmid]
  have hch : (resolve_chat env mp
        (collect_rest env (!inc) db2 tl0 mp.fields).db inc kn fid
        (collect_rest env (!inc) db2 tl0 mp.fields).to_list
        flags).2.2.2.2.2.1.msgs = dbX.msgs := by
    rw [resolve_chat_msgs, collect_rest_msgs, hm2, hm1]
  rw [receive_imf_after_resolve_dedup env dbX mp folder uid flags mid _ _
    inc fb _ ((rfc724_mid_exists_congr mid hch).trans hk)]
  exact ⟨rfl, rfl⟩

/-- After one `receive_imf` call with a header Message-ID and at least one
MIME part, the resulting database registers that Message-ID under the
call's folder and uid - whichever path the call took (duplicate seen
before, duplicate with moved folder/uid, or fresh insertion). -/
theorem receive_imf_registers_mid (env : Env) (db0 : Db) (mp : MimeParser)
    (folder : List Char) (uid flags : Nat) (mid : List Char)
    (h1 : header_message_id mp.fields = some mid)
    (hp : mp.parts ≠ []) :
    mrmailbox_rfc724_mid_exists
        (receive_imf env db0 (some mp) folder uid flags).db mid
      = some (folder, uid) := by
  unfold receive_imf
  dsimp only
  rcases hrf : resolve_from env db0 (scanReturnPath mp.fields) mp.fields
    with ⟨inc, fid, fb, kn, db1⟩
  have hm1 : db1.msgs = db0.msgs := by
    have h0 := resolve_from_msgs env db0 (scanReturnPath mp.fields) mp.fields
    rw [hrf] at h0
    exact h0
  rcases hft : process_first_to env db1 (!inc) kn mp.fields with ⟨db2, tl0⟩
  have hm2 : db2.msgs = db1.msgs := by
    have h0 := process_first_to_msgs env db1 (!inc) kn mp.fields
    rw [hft] at h0
    exact h0
  rw [if_pos (List.length_pos.mpr hp)]
  dsimp only
  have hmid : (collect_rest env (!inc) db2 tl0 mp.fields).rfc724_mid
      = some mid :=
    (collect_rest_rfc724_mid env (!inc) db2 tl0 mp.fields).trans h1
  rw [hmid]
  have hch : (resolve_chat env mp
        (collect_rest env (!inc) db2 tl0 mp.fields).db inc kn fid
        (collect_rest env (!inc) db2 tl0 mp.fields).to_list
        flags).2.2.2.2.2.1.msgs = db0.msgs := by
    rw [resolve_chat_msgs, collect_rest_msgs, hm2, hm1]
  exact receive_imf_after_resolve_registers env db0 mp folder uid flags mid
    _ _ inc fb _ hp hch

/-- C8.  Amended: for a raw message carrying a header `Message-ID:` and at
least one MIME part, a second `receive_imf` call with the same message,
folder and uid is detected as a duplicate by its rfc724_mid: the
transaction is rolled back, leaving the database rows exactly as after
the first call, and the second call queues NO after-commit events.  (The
original claim that the second call emits no events at all is false: the
group resolver still fires its synchronous CHAT_MODIFIED before the dedup
check, see the counterexample.) -/
theorem receive_imf_duplicate_detected (env : Env) (db0 : Db)
    (mp : MimeParser) (folder : List Char) (uid flags : Nat)
    (mid : List Char)
    (h1 : header_message_id mp.fields = some mid)
    (hp : mp.parts ≠ []) :
    (receive_imf env (receive_imf env db0 (some mp) folder uid flags).db
        (some mp) folder uid flags).db
      = (receive_imf env db0 (some mp) folder uid flags).db
    ∧ (receive_imf env (receive_imf env db0 (some mp) folder uid flags).db
        (some mp) folder uid flags).queuedEvents = [] :=
  receive_imf_dedup env (receive_imf env db0 (some mp) folder uid flags).db
    mp folder uid flags mid h1 hp
    (receive_imf_registers_mid env db0 mp folder uid flags mid h1 hp)

/-- C8 counterexample: re-ingesting the identical raw message does not
leave the callback silent - the second call fires `CHAT_MODIFIED(10)`
again, synchronously through `m_cb` while its transaction is open (the
group commands run before the dedup check); the first call's queued
volley was the per-row `MSGS_CHANGED`. -/
theorem receive_imf_second_call_fires_event :
    (receive_imf c9env
        (receive_imf c9env c9db (some c9mp) "INBOX".toList 5 0).db
        (some c9mp) "INBOX".toList 5 0).syncEvents
      = [Event.chatModified 10]
    ∧ (receive_imf c9env c9db (some c9mp) "INBOX".toList 5 0).queuedEvents
      = [Event.msgsChanged 10 100] := by
  constructor
  · decide
  · decide

/-- Witness for C8: the fixture message carries `Message-ID: mid1@x.org`
and one text part; the second ingestion leaves the database of the first
call untouched and queues nothing. -/
theorem receive_imf_duplicate_detected_witness :
    header_message_id c9mp.fields = some "mid1@x.org".toList
    ∧ c9mp.parts ≠ []
    ∧ ((receive_imf c9env
          (receive_imf c9env c9db (some c9mp) "INBOX".toList 5 0).db
          (some c9mp) "INBOX".toList 5 0).db
        = (receive_imf c9env c9db (some c9mp) "INBOX".toList 5 0).db
      ∧ (receive_imf c9env
          (receive_imf c9env c9db (some c9mp) "INBOX".toList 5 0).db
          (some c9mp) "INBOX".toList 5 0).queuedEvents = []) :=
  ⟨by decide, by decide,
   receive_imf_duplicate_detected c9env c9db c9mp "INBOX".toList 5 0
     "mid1@x.org".toList (by decide) (by decide)⟩

end DeltaCore
